import Mathlib

/-!
# Verification of the prerequisite build engine (`site_scons/prereq_tools/base.py`)

This file gives a shallow embedding of the prerequisite resolution and build
orchestration engine: the retrievers (`GitRepoRetriever`, `WebRetriever`),
the `_Component` state machine (`configure`, `is_installed`,
`has_missing_targets`, `set_environment`, `build`) and the registry
(`PreReqComponent.require` with its memoisation and error caches).

External collaborators (the SCons construction environment's probe
primitives, the filesystem, the subprocess runner and pkg-config) are
modelled as oracle functions collected in a `World` record, following the
spec's delineation of the engine's boundary.  All engine control flow is
translated from the source.
-/

set_option autoImplicit false

namespace PrereqTools

/-- `env.AppendUnique` / SCons append-unique semantics: append each element of
`xs` that is not already present, preserving order of first occurrence. -/
def appendUnique (l : List String) : List String → List String
  | [] => l
  | x :: xs => appendUnique (if x ∈ l then l else l ++ [x]) xs

theorem mem_appendUnique_of_mem_left {l xs : List String} {a : String}
    (h : a ∈ l) : a ∈ appendUnique l xs := by
  induction xs generalizing l with
  | nil => exact h
  | cons x xs ih =>
    simp only [appendUnique]
    split
    · exact ih h
    · exact ih (List.mem_append_left _ h)

theorem mem_appendUnique_of_mem_right {l xs : List String} {a : String}
    (h : a ∈ xs) : a ∈ appendUnique l xs := by
  induction xs generalizing l with
  | nil => cases h
  | cons x xs ih =>
    simp only [appendUnique]
    rcases List.mem_cons.mp h with rfl | h
    · split
      · exact mem_appendUnique_of_mem_left (by assumption)
      · exact mem_appendUnique_of_mem_left (List.mem_append_right _ (List.mem_singleton.mpr rfl))
    · exact ih h

theorem appendUnique_eq_self_of_subset {l xs : List String}
    (h : ∀ x ∈ xs, x ∈ l) : appendUnique l xs = l := by
  induction xs generalizing l with
  | nil => rfl
  | cons x xs ih =>
    simp only [appendUnique]
    rw [if_pos (h x (List.mem_cons_self x xs))]
    exact ih fun y hy => h y (List.mem_cons_of_mem _ hy)

/-- Appending the same batch a second time is a no-op. -/
theorem appendUnique_idem (l xs : List String) :
    appendUnique (appendUnique l xs) xs = appendUnique l xs :=
  appendUnique_eq_self_of_subset fun _ hx => mem_appendUnique_of_mem_right hx

theorem nodup_appendUnique {l : List String} (xs : List String)
    (h : l.Nodup) : (appendUnique l xs).Nodup := by
  induction xs generalizing l with
  | nil => exact h
  | cons x xs ih =>
    simp only [appendUnique]
    split
    · exact ih h
    · refine ih ?_
      have hx : x ∉ l := by assumption
      simp [List.nodup_append, h, hx]

/-! ## `WebRetriever.check_md5` (base.py lines 404-418)

The filesystem is modelled as an association list from filename to the MD5
hexdigest of the file's current content; `os.remove` deletes the entry. -/

/-- A filesystem fragment: each present file is listed with the MD5 hexdigest
of its content. -/
structure FS where
  files : List (String × String)
deriving DecidableEq, Repr

def FS.digestOf (fs : FS) (filename : String) : Option String :=
  fs.files.lookup filename

def FS.remove (fs : FS) (filename : String) : FS :=
  ⟨fs.files.filter (fun p => p.1 ≠ filename)⟩

/-- `WebRetriever.check_md5(filename)`: returns `False` for a missing file;
for a present file whose digest differs from the retriever's `md5` it removes
the file and returns `False`; on a match it returns `True` untouched. -/
def check_md5 (md5 : String) (fs : FS) (filename : String) : Bool × FS :=
  match fs.digestOf filename with
  | none => (false, fs)
  | some hexdigest =>
    if hexdigest ≠ md5 then (false, fs.remove filename)
    else (true, fs)

/-! ## `WebRetriever.download` (base.py lines 420-446)

`retries = 3`, so at most `retries + 1 = 4` attempts.  The success of the
`curl` run at attempt `idx` and the outcome of the post-download checksum
verification are oracles indexed by the attempt number.  The returned trace
records the argument of every `time.sleep` call, in order. -/

/-- One attempt of the download loop succeeds when the download command ran
successfully and the checksum then matched. -/
def attemptOk (fRun fMd5 : Nat → Bool) (idx : Nat) : Bool :=
  fRun idx && fMd5 idx

/-- The body of the retry loop: `idx` is the current attempt index,
`remaining` the number of loop iterations left (`retries + 1 - idx`), and
`sleep` the current `initial_sleep` value.  Returns (result, attempts made,
sleep intervals slept). -/
def downloadAux (fRun fMd5 : Nat → Bool) : Nat → Nat → Nat → Bool × Nat × List Nat
  | _, 0, _ => (false, 0, [])
  | idx, 1, _ =>
    if attemptOk fRun fMd5 idx then (true, 1, [])
    else (false, 1, [])
  | idx, remaining + 2, sleep =>
    if attemptOk fRun fMd5 idx then (true, 1, [])
    else
      let (res, n, sleeps) := downloadAux fRun fMd5 (idx + 1) (remaining + 1) (sleep * 2)
      (res, n + 1, sleep :: sleeps)

/-- `WebRetriever.download`: 4 attempts, `initial_sleep = 1` doubling after
each failed non-final attempt. -/
def download (fRun fMd5 : Nat → Bool) : Bool × Nat × List Nat :=
  downloadAux fRun fMd5 0 4 1

theorem digestOf_remove_self (fs : FS) (f : String) :
    (fs.remove f).digestOf f = none := by
  simp only [FS.remove, FS.digestOf]
  induction fs.files with
  | nil => rfl
  | cons p t ih =>
    by_cases hp : p.1 = f
    · simpa [List.filter, hp] using ih
    · simpa [List.filter, hp, List.lookup, beq_eq_false_iff_ne.mpr (Ne.symm hp)] using ih

theorem digestOf_remove_other (fs : FS) (f g : String) (hg : g ≠ f) :
    (fs.remove f).digestOf g = fs.digestOf g := by
  simp only [FS.remove, FS.digestOf]
  induction fs.files with
  | nil => rfl
  | cons p t ih =>
    obtain ⟨a, b⟩ := p
    simp only [ne_eq, decide_not] at ih
    by_cases hp : a = f
    · subst hp
      simp [List.filter, List.lookup, beq_eq_false_iff_ne.mpr hg, ih]
    · cases hgp : (g == a) <;> simp [List.filter, hp, List.lookup, hgp, ih]

/-- C10: `check_md5` returns `False` without filesystem changes for a missing
file; for a present file with a mismatching digest it removes the file (other
files untouched) and returns `False`; for a matching digest it returns `True`
and leaves the filesystem untouched. -/
theorem check_md5_behaviour (md5 : String) (fs : FS) (filename : String) :
    (fs.digestOf filename = none → check_md5 md5 fs filename = (false, fs)) ∧
    (∀ d, fs.digestOf filename = some d → d ≠ md5 →
      (check_md5 md5 fs filename).1 = false ∧
      (check_md5 md5 fs filename).2.digestOf filename = none ∧
      ∀ g, g ≠ filename →
        (check_md5 md5 fs filename).2.digestOf g = fs.digestOf g) ∧
    (fs.digestOf filename = some md5 → check_md5 md5 fs filename = (true, fs)) := by
  refine ⟨fun h => by simp [check_md5, h], fun d hd hne => ?_, fun h => by simp [check_md5, h]⟩
  refine ⟨by simp [check_md5, hd, hne], ?_, fun g hg => ?_⟩
  · simp only [check_md5, hd, if_pos hne]
    exact digestOf_remove_self fs filename
  · simp only [check_md5, hd, if_pos hne]
    exact digestOf_remove_other fs filename g hg

/-- Witness for `check_md5_behaviour` at a concrete filesystem. -/
theorem check_md5_behaviour_witness :
    let fs : FS := ⟨[("tarball", "aaa"), ("other", "bbb")]⟩
    (check_md5 "ccc" fs "tarball").1 = false ∧
    (check_md5 "ccc" fs "tarball").2.digestOf "tarball" = none ∧
    (check_md5 "ccc" fs "tarball").2.digestOf "other" = some "bbb" := by
  intro fs
  refine ⟨((check_md5_behaviour "ccc" fs "tarball").2.1 "aaa" rfl (by decide)).1,
    ((check_md5_behaviour "ccc" fs "tarball").2.1 "aaa" rfl (by decide)).2.1, ?_⟩
  rw [((check_md5_behaviour "ccc" fs "tarball").2.1 "aaa" rfl (by decide)).2.2 "other"
    (by decide)]
  rfl

/-- C7: `download` makes at most 4 attempts, sleeps 1, 2, 4 time units after
the failed non-final attempts, returns `True` at the first attempt whose
download ran and whose checksum matched, and returns `False` after 4 failed
attempts. -/
theorem download_retry_policy (fRun fMd5 : Nat → Bool) :
    (download fRun fMd5).2.1 ≤ 4 ∧
    (download fRun fMd5).2.2 = [1, 2, 4].take ((download fRun fMd5).2.1 - 1) ∧
    ((download fRun fMd5).1 = true ↔ ∃ i, i < 4 ∧ attemptOk fRun fMd5 i = true) ∧
    ((download fRun fMd5).1 = false →
      (download fRun fMd5).2.1 = 4 ∧ ∀ j, j < 4 → attemptOk fRun fMd5 j = false) ∧
    ((download fRun fMd5).1 = true →
      attemptOk fRun fMd5 ((download fRun fMd5).2.1 - 1) = true ∧
      ∀ j, j < (download fRun fMd5).2.1 - 1 → attemptOk fRun fMd5 j = false) := by
  by_cases h0 : attemptOk fRun fMd5 0 = true
  · have hd : download fRun fMd5 = (true, 1, []) := by
      simp [download, downloadAux, h0]
    rw [hd]
    refine ⟨by norm_num, rfl, ⟨fun _ => ⟨0, by omega, h0⟩, fun _ => rfl⟩, ?_, ?_⟩
    · intro h; exact absurd h (by decide)
    · intro _
      refine ⟨h0, fun j hj => ?_⟩
      simp at hj
  · simp only [Bool.not_eq_true] at h0
    by_cases h1 : attemptOk fRun fMd5 1 = true
    · have hd : download fRun fMd5 = (true, 2, [1]) := by
        simp [download, downloadAux, h0, h1]
      rw [hd]
      refine ⟨by norm_num, rfl, ⟨fun _ => ⟨1, by omega, h1⟩, fun _ => rfl⟩, ?_, ?_⟩
      · intro h; exact absurd h (by decide)
      · intro _
        refine ⟨h1, fun j hj => ?_⟩
        have hj2 : j < 1 := by simp at hj; omega
        interval_cases j
        exact h0
    · simp only [Bool.not_eq_true] at h1
      by_cases h2 : attemptOk fRun fMd5 2 = true
      · have hd : download fRun fMd5 = (true, 3, [1, 2]) := by
          simp [download, downloadAux, h0, h1, h2]
        rw [hd]
        refine ⟨by norm_num, rfl, ⟨fun _ => ⟨2, by omega, h2⟩, fun _ => rfl⟩, ?_, ?_⟩
        · intro h; exact absurd h (by decide)
        · intro _
          refine ⟨h2, fun j hj => ?_⟩
          have hj2 : j < 2 := by simp at hj; omega
          interval_cases j <;> assumption
      · simp only [Bool.not_eq_true] at h2
        by_cases h3 : attemptOk fRun fMd5 3 = true
        · have hd : download fRun fMd5 = (true, 4, [1, 2, 4]) := by
            simp [download, downloadAux, h0, h1, h2, h3]
          rw [hd]
          refine ⟨by norm_num, rfl, ⟨fun _ => ⟨3, by omega, h3⟩, fun _ => rfl⟩, ?_, ?_⟩
          · intro h; exact absurd h (by decide)
          · intro _
            refine ⟨h3, fun j hj => ?_⟩
            have hj2 : j < 3 := by simp at hj; omega
            interval_cases j <;> assumption
        · simp only [Bool.not_eq_true] at h3
          have hd : download fRun fMd5 = (false, 4, [1, 2, 4]) := by
            simp [download, downloadAux, h0, h1, h2, h3]
          rw [hd]
          refine ⟨by norm_num, rfl, ⟨?_, ?_⟩, ?_, ?_⟩
          · intro h; exact absurd h (by decide)
          · intro h
            obtain ⟨i, hi, hok⟩ := h
            interval_cases i <;> simp_all
          · intro _
            refine ⟨rfl, fun j hj => ?_⟩
            interval_cases j <;> assumption
          · intro h; exact absurd h (by decide)

/-- Witness for `download_retry_policy`: checksum first matches at the third
attempt, so two sleeps (1 and 2 units) occur and the call succeeds. -/
theorem download_retry_policy_witness :
    download (fun _ => true) (fun i => i == 2) = (true, 3, [1, 2]) ∧
    attemptOk (fun _ => true) (fun i => i == 2) 2 = true := by
  have h := (download_retry_policy (fun _ => true) (fun i => i == 2)).2.2.2.2 (by rfl)
  exact ⟨by rfl, by simpa using h.1⟩

/-! ## `WebRetriever.get` extraction guard (base.py lines 448-492)

The tar extraction happens with `path="."` (the process working directory);
the common-prefix containment check `is_within_directory` and the
all-members-first loop of `safe_extract` are translated verbatim.  Paths are
modelled at the character level (`List Char`) because
`os.path.commonprefix` is a character-wise operation; `os.path.abspath` is
`normpath(join(cwd, p))` with an absolute `cwd`, which the model implements
exactly (POSIX rules, no symlink resolution — `abspath` performs none). -/

/-- A path as a raw character string. -/
abbrev Str := List Char

/-- Split a path string on `'/'` (the component list seen by `normpath`). -/
def splitSlash : Str → List Str
  | [] => [[]]
  | '/' :: rest => [] :: splitSlash rest
  | c :: rest =>
    match splitSlash rest with
    | [] => [[c]]
    | h :: t => (c :: h) :: t

/-- One step of POSIX `normpath` on an absolute path: empty and `.`
components vanish, `..` pops the last component (staying at the root when
there is nothing to pop). -/
def normComp (acc : List Str) (comp : Str) : List Str :=
  if comp = [] ∨ comp = ['.'] then acc
  else if comp = ['.', '.'] then acc.dropLast
  else acc ++ [comp]

def normParts (parts : List Str) : List Str := parts.foldl normComp []

/-- Render a normalised absolute component list back to a string. -/
def renderAbs (comps : List Str) : Str := '/' :: List.intercalate ['/'] comps

/-- `os.path.join(a, b)` for a single pair: an absolute `b` discards `a`. -/
def pyJoin (a b : Str) : Str :=
  if b.head? = some '/' then b
  else if a = [] then b
  else if a.getLast? = some '/' then a ++ b
  else a ++ '/' :: b

/-- `os.path.abspath(p)` relative to the absolute working directory `cwd`:
`normpath(join(cwd, p))`. -/
def abspath (cwd p : Str) : Str := renderAbs (normParts (splitSlash (pyJoin cwd p)))

/-- `os.path.commonprefix([a, b])`: the longest common character prefix. -/
def commonpref : Str → Str → Str
  | a :: as, b :: bs => if a = b then a :: commonpref as bs else []
  | _, _ => []

/-- `is_within_directory(directory, target)` exactly as in the source: the
character-wise common prefix of the two absolute paths must equal the
absolute directory. -/
def is_within_directory (cwd directory target : Str) : Bool :=
  let abs_directory := abspath cwd directory
  let abs_target := abspath cwd target
  commonpref abs_directory abs_target == abs_directory

/-- `safe_extract(tar, path=".")`: first every member is checked with
`is_within_directory(path, join(path, member.name))`; only if all pass does
`tar.extractall` run, writing each member at its resolved absolute path.
The error value mirrors the `Exception` raised on the first offending
member (raised before anything is extracted). -/
def safe_extract (cwd path : Str) (members : List Str) : Except String (List Str) :=
  if members.all (fun m => is_within_directory cwd path (pyJoin path m)) then
    Except.ok (members.map (fun m => abspath cwd (pyJoin path m)))
  else Except.error "Attempted Path Traversal in Tar File"

/-- True directory containment: `target` is the directory itself or lies
below it.  This is what "resolved path falls outside the destination
directory" negates. -/
def containedIn (dir target : Str) : Bool :=
  target == dir || (dir ++ ['/']).isPrefixOf target

/-- C2 (failing input): with the working directory `/w`, the archive member
`../wx` resolves to `/wx`, which is outside the extraction directory `/w`,
yet the string-prefix containment check accepts it (`/w` is a character
prefix of `/wx`), so `safe_extract` extracts it instead of raising.  A
member such as `../../evil` is caught, showing the guard's intent. -/
theorem safe_extract_traversal_bypass :
    abspath "/w".data ".".data = "/w".data ∧
    abspath "/w".data (pyJoin ".".data "../wx".data) = "/wx".data ∧
    containedIn "/w".data "/wx".data = false ∧
    safe_extract "/w".data ".".data ["../wx".data] = Except.ok ["/wx".data] ∧
    safe_extract "/w".data ".".data ["../../evil".data] =
      Except.error "Attempted Path Traversal in Tar File" :=
  ⟨rfl, rfl, rfl, rfl, rfl⟩

/-! ## Exceptions of the engine (base.py lines 52-234) -/

/-- The exception taxonomy raised by the engine.  `outOfFuel` is a model
artefact marking exhaustion of the recursion bound of the shallow embedding;
it never occurs in runs given sufficient fuel. -/
inductive Err where
  | downloadFailure (repo subdir : String)
  | extractionError (component : String)
  | unsupportedCompression (component : String)
  | missingDefinition (component : String)
  | buildFailure (component : String)
  | missingTargets (component : String) (package : Option String)
  | missingSystemLibs (component : String)
  | downloadRequired (component : String)
  | buildRequired (component : String)
  | outOfFuel
deriving DecidableEq, Repr

deriving instance DecidableEq for Except

/-! ## `GitRepoRetriever` (base.py lines 300-391)

`RUNNER.run_commands` and the filesystem are oracles; the trace records
every batch of commands handed to the runner, in order.  The retriever's
`branch`/`commit_sha` fields are mutated by `get`, so the model threads the
retriever record and returns its final state. -/

structure GitRepoRetriever where
  url : String
  has_submodules : Bool
  branch : Option String
  commit_sha : Option String
deriving DecidableEq, Repr

/-- The oracle for `RUNNER.run_commands` and `os.path.exists`. -/
structure RunWorld where
  runOk : List (List String) → Bool
  pathExists : String → Bool

/-- A trace of `RUNNER.run_commands` invocations (each entry one batch). -/
abbrev Batches := List (List (List String))

/-- Sequence two traced steps, aborting on error (Python exception
propagation). -/
def andThen (step : Except Err GitRepoRetriever × Batches)
    (k : GitRepoRetriever → Except Err GitRepoRetriever × Batches) :
    Except Err GitRepoRetriever × Batches :=
  match step with
  | (Except.error e, tr) => (Except.error e, tr)
  | (Except.ok r, tr) => let (res, tr2) := k r; (res, tr ++ tr2)

/-- `GitRepoRetriever.checkout_commit`: checkout `commit_sha` when set. -/
def checkout_commit (w : RunWorld) (r : GitRepoRetriever) (subdir : String) :
    Except Err Unit × Batches :=
  match r.commit_sha with
  | none => (Except.ok (), [])
  | some sha =>
    let commands := [["git", "checkout", sha]]
    if w.runOk commands then (Except.ok (), [commands])
    else (Except.error (Err.downloadFailure r.url subdir), [commands])

/-- The checkout-else-fetch retry idiom used (twice, identically) in
`_get_specific`: try `git checkout ref`; on failure `git fetch -t -a`,
raising `DownloadFailure` if the fetch also fails. -/
def checkout_with_refetch (w : RunWorld) (url subdir ref : String) :
    Except Err Unit × Batches :=
  let command := [["git", "checkout", ref]]
  if w.runOk command then (Except.ok (), [command])
  else
    let fetch := [["git", "fetch", "-t", "-a"]]
    if w.runOk fetch then (Except.ok (), [command, fetch])
    else (Except.error (Err.downloadFailure url subdir), [command, fetch])

/-- The branch block of `_get_specific`: if a branch is configured, check it
out (with the refetch retry), record it as `commit_sha` and run
`checkout_commit`. -/
def branchPhase (w : RunWorld) (subdir : String) (r : GitRepoRetriever) :
    Except Err GitRepoRetriever × Batches :=
  match r.branch with
  | none => (Except.ok r, [])
  | some b =>
    match checkout_with_refetch w r.url subdir b with
    | (Except.error e, tr) => (Except.error e, tr)
    | (Except.ok _, tr) =>
      let r2 := { r with commit_sha := some b }
      match checkout_commit w r2 subdir with
      | (Except.ok _, tr2) => (Except.ok r2, tr ++ tr2)
      | (Except.error e, tr2) => (Except.error e, tr ++ tr2)

/-- The commit block of `_get_specific`: if a commit SHA was passed, check
it out (with the refetch retry), record it and run `checkout_commit`. -/
def shaPhase (w : RunWorld) (subdir : String) (kwSha : Option String)
    (r : GitRepoRetriever) : Except Err GitRepoRetriever × Batches :=
  match kwSha with
  | none => (Except.ok r, [])
  | some sha =>
    match checkout_with_refetch w r.url subdir sha with
    | (Except.error e, tr) => (Except.error e, tr)
    | (Except.ok _, tr) =>
      let r2 := { r with commit_sha := some sha }
      match checkout_commit w r2 subdir with
      | (Except.ok _, tr2) => (Except.ok r2, tr ++ tr2)
      | (Except.error e, tr2) => (Except.error e, tr ++ tr2)

/-- `git reset --hard HEAD` discarding local modifications. -/
def resetPhase (w : RunWorld) (subdir : String) (r : GitRepoRetriever) :
    Except Err GitRepoRetriever × Batches :=
  let command := [["git", "reset", "--hard", "HEAD"]]
  if w.runOk command then (Except.ok r, [command])
  else (Except.error (Err.downloadFailure r.url subdir), [command])

/-- `GitRepoRetriever._update_submodules`. -/
def submodulePhase (w : RunWorld) (subdir : String) (r : GitRepoRetriever) :
    Except Err GitRepoRetriever × Batches :=
  if r.has_submodules then
    let commands := [["git", "submodule", "init"], ["git", "submodule", "update"]]
    if w.runOk commands then (Except.ok r, [commands])
    else (Except.error (Err.downloadFailure r.url subdir), [commands])
  else (Except.ok r, [])

/-- `GitRepoRetriever._apply_patches`: each patch is `git apply`-ed
(optionally under `--directory`), aborting on the first failure. -/
def apply_patches (w : RunWorld) (url subdir : String) :
    List (String × Option String) → Except Err Unit × Batches
  | [] => (Except.ok (), [])
  | (patch, pdir) :: rest =>
    let command := ["git", "apply"] ++
      (match pdir with | some d => ["--directory", d] | none => []) ++ [patch]
    if w.runOk [command] then
      match apply_patches w url subdir rest with
      | (res, tr) => (res, [command] :: tr)
    else (Except.error (Err.downloadFailure url subdir), [[command]])

/-- `GitRepoRetriever._get_specific`: merge the passed branch over the
configured one, then branch checkout, commit checkout, hard reset,
submodules, patches. -/
def get_specific (w : RunWorld) (r0 : GitRepoRetriever) (subdir : String)
    (kwBranch kwSha : Option String) (patches : List (String × Option String)) :
    Except Err GitRepoRetriever × Batches :=
  let branch := match kwBranch with | none => r0.branch | some b => some b
  let r1 := { r0 with branch := branch }
  andThen (branchPhase w subdir r1) fun r2 =>
  andThen (shaPhase w subdir kwSha r2) fun r3 =>
  andThen (resetPhase w subdir r3) fun r4 =>
  andThen (submodulePhase w subdir r4) fun r5 =>
  match apply_patches w r5.url subdir patches with
  | (Except.ok _, tr) => (Except.ok r5, tr)
  | (Except.error e, tr) => (Except.error e, tr)

/-- `GitRepoRetriever.get`: the pin check on `commit_sha` comes first; only
then is the repository cloned (when the destination is absent) and
`_get_specific` run. -/
def GitRepoRetriever.get (w : RunWorld) (r : GitRepoRetriever) (subdir : String)
    (kwSha kwBranch : Option String) (patches : List (String × Option String)) :
    Except Err GitRepoRetriever × Batches :=
  match kwSha with
  | none => (Except.error (Err.downloadFailure r.url subdir), [])
  | some _ =>
    if w.pathExists subdir then get_specific w r subdir kwBranch kwSha patches
    else
      let commands := [["git", "clone", r.url, subdir]]
      if w.runOk commands then
        match get_specific w r subdir kwBranch kwSha patches with
        | (res, tr) => (res, commands :: tr)
      else (Except.error (Err.downloadFailure r.url subdir), [commands])

theorem andThen_ne_nil_left {s : Except Err GitRepoRetriever × Batches}
    {k : GitRepoRetriever → Except Err GitRepoRetriever × Batches}
    (h : s.2 ≠ []) : (andThen s k).2 ≠ [] := by
  obtain ⟨res, tr⟩ := s
  cases res with
  | error e => exact h
  | ok r =>
    simp only [andThen]
    simp only at h
    intro hc
    exact h (List.append_eq_nil.mp (by simpa using hc)).1

theorem andThen_ok_nil {r : GitRepoRetriever}
    {k : GitRepoRetriever → Except Err GitRepoRetriever × Batches} :
    andThen (Except.ok r, []) k = k r := by
  simp only [andThen]
  obtain ⟨res, tr⟩ := k r
  simp

theorem checkout_with_refetch_ne_nil (w : RunWorld) (url subdir ref : String) :
    (checkout_with_refetch w url subdir ref).2 ≠ [] := by
  simp only [checkout_with_refetch]
  by_cases h1 : w.runOk [["git", "checkout", ref]] = true <;>
    by_cases h2 : w.runOk [["git", "fetch", "-t", "-a"]] = true <;>
      simp [h1, h2]

theorem shaPhase_ne_nil (w : RunWorld) (subdir : String) (s : String)
    (r : GitRepoRetriever) : (shaPhase w subdir (some s) r).2 ≠ [] := by
  obtain ⟨url, subm, br, sha⟩ := r
  simp only [shaPhase]
  cases hcr : checkout_with_refetch w url subdir s with
  | mk res tr =>
    have htr : tr ≠ [] := by
      have h := checkout_with_refetch_ne_nil w url subdir s
      rw [hcr] at h
      exact h
    cases res with
    | error e => simpa using htr
    | ok u =>
      cases hcc : checkout_commit w ⟨url, subm, br, some s⟩ subdir with
      | mk res2 tr2 => cases res2 <;> simp_all

theorem branchPhase_some_ne_nil (w : RunWorld) (subdir : String)
    (r : GitRepoRetriever) (b : String) (hb : r.branch = some b) :
    (branchPhase w subdir r).2 ≠ [] := by
  obtain ⟨url, subm, br, sha⟩ := r
  simp only at hb
  subst hb
  simp only [branchPhase]
  cases hcr : checkout_with_refetch w url subdir b with
  | mk res tr =>
    have htr : tr ≠ [] := by
      have h := checkout_with_refetch_ne_nil w url subdir b
      rw [hcr] at h
      exact h
    cases res with
    | error e => simpa using htr
    | ok u =>
      cases hcc : checkout_commit w ⟨url, subm, some b, some b⟩ subdir with
      | mk res2 tr2 => cases res2 <;> simp_all

theorem get_specific_ne_nil (w : RunWorld) (r0 : GitRepoRetriever)
    (subdir : String) (kwBranch : Option String) (s : String)
    (patches : List (String × Option String)) :
    (get_specific w r0 subdir kwBranch (some s) patches).2 ≠ [] := by
  simp only [get_specific]
  cases hb : (match kwBranch with | none => r0.branch | some b => some b) with
  | some b =>
    exact andThen_ne_nil_left
      (branchPhase_some_ne_nil w subdir { r0 with branch := some b } b rfl)
  | none =>
    have hbr : branchPhase w subdir { r0 with branch := none } = (Except.ok { r0 with branch := none }, []) := by
      simp [branchPhase]
    rw [hbr, andThen_ok_nil]
    exact andThen_ne_nil_left (shaPhase_ne_nil w subdir s _)

/-- C3 counterexample: a branch is supplied but no commit SHA — the claim
says this gets past the pin check, but `get` raises `DownloadFailure`
immediately, before any clone or checkout command is handed to the runner
(the trace is empty). -/
theorem git_get_branch_without_sha_fails :
    GitRepoRetriever.get ⟨fun _ => true, fun _ => false⟩
      ⟨"https://example.invalid/repo.git", false, none, none⟩
      "deps/comp" none (some "master") [] =
      (Except.error (Err.downloadFailure "https://example.invalid/repo.git" "deps/comp"), []) :=
  rfl

/-- C3 (amended): `get` raises `DownloadFailure` before any command runs
precisely when no commit SHA is passed — a branch alone does not get past
the pin check; a commit SHA does (commands are then handed to the runner,
starting with the clone or checkout). -/
theorem git_get_pin_check (w : RunWorld) (r : GitRepoRetriever) (subdir : String)
    (kwSha kwBranch : Option String) (patches : List (String × Option String)) :
    (kwSha = none →
      GitRepoRetriever.get w r subdir kwSha kwBranch patches =
        (Except.error (Err.downloadFailure r.url subdir), [])) ∧
    (∀ s, kwSha = some s →
      (GitRepoRetriever.get w r subdir kwSha kwBranch patches).2 ≠ []) := by
  constructor
  · intro h
    subst h
    rfl
  · intro s hs
    subst hs
    simp only [GitRepoRetriever.get]
    by_cases hp : w.pathExists subdir = true
    · simp only [hp, if_true]
      exact get_specific_ne_nil w r subdir kwBranch s patches
    · simp only [hp, Bool.false_eq_true, if_false]
      by_cases hc : w.runOk [["git", "clone", r.url, subdir]] = true
      · simp only [hc, if_true]
        cases hgs : get_specific w r subdir kwBranch (some s) patches with
        | mk res tr => simp
      · simp [hc]

/-- Witness for `git_get_pin_check` at concrete inputs: with a SHA the
clone command reaches the runner; without one nothing does. -/
theorem git_get_pin_check_witness :
    (GitRepoRetriever.get ⟨fun _ => true, fun _ => false⟩
      ⟨"u", false, none, none⟩ "d" none none [] =
      (Except.error (Err.downloadFailure "u" "d"), [])) ∧
    (GitRepoRetriever.get ⟨fun _ => true, fun _ => false⟩
      ⟨"u", false, none, none⟩ "d" (some "abc123") none []).2 ≠ [] :=
  ⟨(git_get_pin_check ⟨fun _ => true, fun _ => false⟩ ⟨"u", false, none, none⟩
      "d" none none []).1 rfl,
   (git_get_pin_check ⟨fun _ => true, fun _ => false⟩ ⟨"u", false, none, none⟩
      "d" (some "abc123") none []).2 "abc123" rfl⟩

/-! ## The engine's oracles, options and environment

The SCons option store (`GetOption`) is a record of the flags the engine
reads.  `check_only` implies `no_exec` (both `WebRetriever.__init__` and
`PreReqComponent.__init__` run `SetOption('no_exec', True)` under
`--check-only` before any component is created), so every captured
`__dry_run` flag is `noExec || checkOnly`. -/

structure Opts where
  helpOpt : Bool
  cleanOpt : Bool
  noExec : Bool
  checkOnly : Bool
deriving DecidableEq, Repr

/-- The captured `self.__dry_run = GetOption('no_exec')` value. -/
def Opts.dryRun (o : Opts) : Bool := o.noExec || o.checkOnly

/-- The `no_exec` value seen by a check that is wrapped in
`if self.__check_only: env.SetOption('no_exec', False) ... SetOption('no_exec', True)`:
under `check_only` the dry-run gate is lifted for the duration of the check. -/
def Opts.effNoExec (o : Opts) : Bool := if o.checkOnly then false else o.noExec

/-- The oracles for all external collaborators of the engine: the command
runner, the filesystem, the SCons `Configure` probe primitives
(`CheckProg`/`CheckHeader`/`CheckLib`/`CheckFunc`), a component's custom
`config_cb` outcome (keyed by component name), and pkg-config responses
(keyed by the pkg-config package name). -/
structure World where
  runOk : List (List String) → Bool
  pathExists : String → Bool
  checkProg : String → Bool
  checkHeader : String → Bool
  checkLib : String → Bool
  checkFunc : String → Bool
  configCbOk : String → Bool
  pkgConfigOk : String → Bool
  pkgCflagsPaths : String → List String
  pkgCflagsDefines : String → List String
  pkgLibsPaths : String → List String
  pkgLibsLibs : String → List String
  osPkgConfigPath : Option String

/-- The construction-environment variables the engine mutates.  List-valued
construction variables (`CPPPATH`, `LIBPATH`, `RPATH`, `RPATH_FULL`,
`CPPDEFINES`, `LINKFLAGS`, `LIBS`) are plain lists mutated through
`AppendUnique`; `ENV` path variables (`PATH`, `LD_LIBRARY_PATH`,
`PKG_CONFIG_PATH`) are path lists mutated through `AppendENVPath`, which
also appends without duplicating; `PKG_CONFIG_PATH` may be absent
(`none`). -/
@[ext] structure Env where
  cpppath : List String
  libpath : List String
  rpath : List String
  rpath_full : List String
  cppdefines : List String
  linkflags : List String
  libsVar : List String
  envPath : List String
  ldLibraryPath : List String
  pkgConfigPath : Option (List String)
deriving DecidableEq, Repr

/-- `os.path.join` for the well-formed directory names the engine builds. -/
def joinPath (a b : String) : String := a ++ "/" ++ b

/-! ## `_Component` data (base.py lines 1249-1289)

`component_pref` models the `component_prefix` attribute and `prefixVar`
the `prefix` attribute.  The retriever is reduced to its presence
(`hasRetriever`); the concrete retrievers are modelled separately above.
`has_config_cb` records whether a `config_cb` was supplied (its outcome is
the `configCbOk` oracle).  Note `__init__` appends `"patchelf"` to
`required_progs` when `patch_rpath` is non-empty; components used in the
theorems are taken post-`__init__`. -/

structure Comp where
  name : String
  use_installed : Bool
  targets_found : Bool
  build_path : Option String
  prebuilt_path : Option String
  patch_rpath : List String
  src_path : Option String
  prefixVar : Option String
  component_pref : Option String
  package : Option String
  progs : List String
  libs : List String
  libs_cc : Option String
  functions : List (String × List String)
  has_config_cb : Bool
  required_libs : List String
  required_progs : List String
  defines : List String
  headers : List String
  requires : List String
  pkgconfig : Option String
  build_commands : List (List String)
  hasRetriever : Bool
  lib_path : List String
  include_path : List String
  out_of_src_build : Bool
deriving DecidableEq, Repr

/-! ## `_Component.parse_config` (base.py lines 1375-1399) -/

/-- `parse_config(env, opts)` with `opts` either `--cflags` (`cflags =
true`) or `--libs`: copy `os.environ`'s `PKG_CONFIG_PATH` into the
environment if absent; for a non-installed component with a real prefix,
append the prefix's existing `lib{,64}/pkgconfig` dirs (returning early if
none exists); then merge the pkg-config output, ignoring a failing
pkg-config run (the `OSError` swallow). -/
def parse_config (w : World) (c : Comp) (env : Env) (cflags : Bool) : Env :=
  match c.pkgconfig with
  | none => env
  | some pkg =>
    let env1 :=
      match w.osPkgConfigPath with
      | some p => if env.pkgConfigPath = none then { env with pkgConfigPath := some [p] } else env
      | none => env
    let dirsActive : Prop :=
      ¬ c.use_installed ∧ c.component_pref ≠ none ∧ c.component_pref ≠ some "/usr"
    let dirs := (["lib", "lib64"].map
        (fun p => joinPath (joinPath (c.component_pref.getD "") p) "pkgconfig")).filter
      w.pathExists
    let step :=
      if dirsActive then
        if dirs = [] then none
        else some { env1 with
          pkgConfigPath := some (appendUnique (env1.pkgConfigPath.getD []) dirs) }
      else some env1
    match step with
    | none => env1
    | some env2 =>
      if ¬ w.pkgConfigOk pkg then env2
      else if cflags then
        { env2 with cpppath := appendUnique env2.cpppath (w.pkgCflagsPaths pkg),
                    cppdefines := appendUnique env2.cppdefines (w.pkgCflagsDefines pkg) }
      else
        { env2 with libpath := appendUnique env2.libpath (w.pkgLibsPaths pkg),
                    libsVar := appendUnique env2.libsVar (w.pkgLibsLibs pkg) }

/-! ## `_Component.set_environment` (base.py lines 1511-1554) -/

/-- `set_environment(env, needed_libs)` in source order: for a
non-installed, non-`/usr` component add `bin/` to `PATH`, the include
subdirectories to `CPPPATH`, the existing lib subdirectories to
`RPATH_FULL` and `LD_LIBRARY_PATH`, and the new-dtags link flag; for a bare
`/usr` install without a package add the `/usr/lib` fallback `RPATH`;
always append the defines and merge pkg-config `--cflags`; with
`needed_libs` also merge pkg-config `--libs` and append the collected lib
paths to `LIBPATH` and the requested libs to `LIBS`.
(`component_prefix` can only be `None` here while `use_installed` is true,
in which case the first branch is skipped; the `"None"` default mirrors the
placeholder Python would interpolate.) -/
def set_environment (w : World) (c : Comp) (env : Env) (needed_libs : Option (List String)) :
    Env :=
  let cp := c.component_pref.getD "None"
  let lib_paths :=
    if ¬ c.use_installed ∧ c.component_pref ≠ some "/usr" then
      (c.lib_path.map (fun p => joinPath cp p)).filter w.pathExists
    else []
  let env :=
    if ¬ c.use_installed ∧ c.component_pref ≠ some "/usr" then
      let env := { env with envPath := appendUnique env.envPath [joinPath cp "bin"] }
      let env := { env with
        cpppath := appendUnique env.cpppath (c.include_path.map (fun p => joinPath cp p)) }
      let env := { env with rpath_full := appendUnique env.rpath_full lib_paths,
                            ldLibraryPath := appendUnique env.ldLibraryPath lib_paths }
      { env with linkflags := appendUnique env.linkflags ["-Wl,--enable-new-dtags"] }
    else env
  let env :=
    if c.component_pref = some "/usr" ∧ c.package = none then
      let env := { env with rpath := appendUnique env.rpath ["/usr/lib"] }
      { env with linkflags := appendUnique env.linkflags ["-Wl,--enable-new-dtags"] }
    else env
  let env := { env with cppdefines := appendUnique env.cppdefines c.defines }
  let env := parse_config w c env true
  match needed_libs with
  | none => env
  | some nl =>
    let env := parse_config w c env false
    let env := { env with libpath := appendUnique env.libpath lib_paths }
    { env with libsVar := appendUnique env.libsVar nl }

/-- Absorption: re-appending the batch `a` once `b` has been appended on top
of it changes nothing. -/
@[simp] theorem appendUnique_absorb_mid (x a b : List String) :
    appendUnique (appendUnique (appendUnique x a) b) a
      = appendUnique (appendUnique x a) b :=
  appendUnique_eq_self_of_subset fun _ he =>
    mem_appendUnique_of_mem_left (mem_appendUnique_of_mem_right he)

@[simp] theorem appendUnique_idem_simp (x a : List String) :
    appendUnique (appendUnique x a) a = appendUnique x a :=
  appendUnique_idem x a

/-- The `lib{,64}/pkgconfig` directories `parse_config` probes under the
component's prefix. -/
def pc_dirs (w : World) (c : Comp) : List String :=
  (["lib", "lib64"].map
    (fun p => joinPath (joinPath (c.component_pref.getD "") p) "pkgconfig")).filter
    w.pathExists

/-- The condition under which `parse_config` restricts `PKG_CONFIG_PATH` to
the component's own prefix. -/
def pcPrefixed (c : Comp) : Prop :=
  ¬ c.use_installed ∧ c.component_pref ≠ none ∧ c.component_pref ≠ some "/usr"

instance (c : Comp) : Decidable (pcPrefixed c) := by
  unfold pcPrefixed
  infer_instance

/-- Does `parse_config` reach (and succeed at) the pkg-config merge? -/
def pcMerges (w : World) (c : Comp) (pkg : String) : Prop :=
  ¬ (pcPrefixed c ∧ pc_dirs w c = []) ∧ w.pkgConfigOk pkg

instance (w : World) (c : Comp) (pkg : String) : Decidable (pcMerges w c pkg) := by
  unfold pcMerges
  infer_instance

/-- The include paths `parse_config --cflags` merges into `CPPPATH`. -/
def pcCfPaths (w : World) (c : Comp) : List String :=
  match c.pkgconfig with
  | none => []
  | some pkg => if pcMerges w c pkg then w.pkgCflagsPaths pkg else []

/-- The defines `parse_config --cflags` merges into `CPPDEFINES`. -/
def pcCfDefines (w : World) (c : Comp) : List String :=
  match c.pkgconfig with
  | none => []
  | some pkg => if pcMerges w c pkg then w.pkgCflagsDefines pkg else []

/-- The lib dirs `parse_config --libs` merges into `LIBPATH`. -/
def pcLbPaths (w : World) (c : Comp) : List String :=
  match c.pkgconfig with
  | none => []
  | some pkg => if pcMerges w c pkg then w.pkgLibsPaths pkg else []

/-- The libs `parse_config --libs` merges into `LIBS`. -/
def pcLbLibs (w : World) (c : Comp) : List String :=
  match c.pkgconfig with
  | none => []
  | some pkg => if pcMerges w c pkg then w.pkgLibsLibs pkg else []

/-- The `PKG_CONFIG_PATH` update `parse_config` performs. -/
def pcpNext (w : World) (c : Comp) (v : Option (List String)) : Option (List String) :=
  match c.pkgconfig with
  | none => v
  | some _ =>
    let v1 := match w.osPkgConfigPath with
      | some p => if v = none then some [p] else v
      | none => v
    if pcPrefixed c ∧ pc_dirs w c ≠ [] then
      some (appendUnique (v1.getD []) (pc_dirs w c))
    else v1

@[simp] theorem appendUnique_nil (l : List String) : appendUnique l [] = l := rfl

theorem pc_cpppath (w : World) (c : Comp) (env : Env) :
    (parse_config w c env true).cpppath = appendUnique env.cpppath (pcCfPaths w c) := by
  cases hpc : c.pkgconfig <;>
    cases hos : w.osPkgConfigPath <;>
      simp only [parse_config, pcCfPaths, pcMerges, pcPrefixed, pc_dirs, hpc, hos,
        appendUnique_nil] <;>
      split_ifs <;> simp_all


theorem pc_cpppath_false (w : World) (c : Comp) (env : Env) :
    (parse_config w c env false).cpppath = env.cpppath := by
  cases hpc : c.pkgconfig <;>
    cases hos : w.osPkgConfigPath <;>
      simp only [parse_config, hpc, hos] <;>
      split_ifs <;> simp_all

theorem pc_cppdefines (w : World) (c : Comp) (env : Env) :
    (parse_config w c env true).cppdefines
      = appendUnique env.cppdefines (pcCfDefines w c) := by
  cases hpc : c.pkgconfig <;>
    cases hos : w.osPkgConfigPath <;>
      simp only [parse_config, pcCfDefines, pcMerges, pcPrefixed, pc_dirs, hpc, hos,
        appendUnique_nil] <;>
      split_ifs <;> simp_all

theorem pc_cppdefines_false (w : World) (c : Comp) (env : Env) :
    (parse_config w c env false).cppdefines = env.cppdefines := by
  cases hpc : c.pkgconfig <;>
    cases hos : w.osPkgConfigPath <;>
      simp only [parse_config, hpc, hos] <;>
      split_ifs <;> simp_all

theorem pc_libpath (w : World) (c : Comp) (env : Env) :
    (parse_config w c env false).libpath
      = appendUnique env.libpath (pcLbPaths w c) := by
  cases hpc : c.pkgconfig <;>
    cases hos : w.osPkgConfigPath <;>
      simp only [parse_config, pcLbPaths, pcMerges, pcPrefixed, pc_dirs, hpc, hos,
        appendUnique_nil] <;>
      split_ifs <;> simp_all

theorem pc_libpath_true (w : World) (c : Comp) (env : Env) :
    (parse_config w c env true).libpath = env.libpath := by
  cases hpc : c.pkgconfig <;>
    cases hos : w.osPkgConfigPath <;>
      simp only [parse_config, hpc, hos] <;>
      split_ifs <;> simp_all

theorem pc_libsVar (w : World) (c : Comp) (env : Env) :
    (parse_config w c env false).libsVar
      = appendUnique env.libsVar (pcLbLibs w c) := by
  cases hpc : c.pkgconfig <;>
    cases hos : w.osPkgConfigPath <;>
      simp only [parse_config, pcLbLibs, pcMerges, pcPrefixed, pc_dirs, hpc, hos,
        appendUnique_nil] <;>
      split_ifs <;> simp_all

theorem pc_libsVar_true (w : World) (c : Comp) (env : Env) :
    (parse_config w c env true).libsVar = env.libsVar := by
  cases hpc : c.pkgconfig <;>
    cases hos : w.osPkgConfigPath <;>
      simp only [parse_config, hpc, hos] <;>
      split_ifs <;> simp_all

theorem pc_envPath (w : World) (c : Comp) (env : Env) (f : Bool) :
    (parse_config w c env f).envPath = env.envPath := by
  cases hpc : c.pkgconfig <;>
    cases hos : w.osPkgConfigPath <;>
      simp only [parse_config, hpc, hos] <;>
      split_ifs <;> simp_all

theorem pc_ldLibraryPath (w : World) (c : Comp) (env : Env) (f : Bool) :
    (parse_config w c env f).ldLibraryPath = env.ldLibraryPath := by
  cases hpc : c.pkgconfig <;>
    cases hos : w.osPkgConfigPath <;>
      simp only [parse_config, hpc, hos] <;>
      split_ifs <;> simp_all

theorem pc_rpath (w : World) (c : Comp) (env : Env) (f : Bool) :
    (parse_config w c env f).rpath = env.rpath := by
  cases hpc : c.pkgconfig <;>
    cases hos : w.osPkgConfigPath <;>
      simp only [parse_config, hpc, hos] <;>
      split_ifs <;> simp_all

theorem pc_rpath_full (w : World) (c : Comp) (env : Env) (f : Bool) :
    (parse_config w c env f).rpath_full = env.rpath_full := by
  cases hpc : c.pkgconfig <;>
    cases hos : w.osPkgConfigPath <;>
      simp only [parse_config, hpc, hos] <;>
      split_ifs <;> simp_all

theorem pc_linkflags (w : World) (c : Comp) (env : Env) (f : Bool) :
    (parse_config w c env f).linkflags = env.linkflags := by
  cases hpc : c.pkgconfig <;>
    cases hos : w.osPkgConfigPath <;>
      simp only [parse_config, hpc, hos] <;>
      split_ifs <;> simp_all

theorem pc_pcp (w : World) (c : Comp) (env : Env) (f : Bool) :
    (parse_config w c env f).pkgConfigPath = pcpNext w c env.pkgConfigPath := by
  cases hpc : c.pkgconfig <;>
    cases hos : w.osPkgConfigPath <;>
      simp only [parse_config, pcpNext, pcPrefixed, pc_dirs, hpc, hos] <;>
      split_ifs <;> simp_all

theorem pcpNext_idem (w : World) (c : Comp) (v : Option (List String)) :
    pcpNext w c (pcpNext w c v) = pcpNext w c v := by
  cases hpc : c.pkgconfig <;>
    cases hos : w.osPkgConfigPath <;>
      cases v <;>
        simp only [pcpNext, pcPrefixed, pc_dirs, hpc, hos] <;>
        split_ifs <;> simp_all


theorem se_idem_cpppath (w : World) (c : Comp) (env : Env) (nl : Option (List String)) :
    (set_environment w c (set_environment w c env nl) nl).cpppath
      = (set_environment w c env nl).cpppath := by
  cases hui : c.use_installed <;>
    by_cases hP1 : c.component_pref = some "/usr" <;>
      cases hpk : c.package <;>
        cases nl <;>
          simp [set_environment, pc_cpppath, pc_cpppath_false, hui, hP1, hpk]

theorem se_idem_libpath (w : World) (c : Comp) (env : Env) (nl : Option (List String)) :
    (set_environment w c (set_environment w c env nl) nl).libpath
      = (set_environment w c env nl).libpath := by
  cases hui : c.use_installed <;>
    by_cases hP1 : c.component_pref = some "/usr" <;>
      cases hpk : c.package <;>
        cases nl <;>
          simp [set_environment, pc_libpath, pc_libpath_true, hui, hP1, hpk]

theorem se_idem_rpath (w : World) (c : Comp) (env : Env) (nl : Option (List String)) :
    (set_environment w c (set_environment w c env nl) nl).rpath
      = (set_environment w c env nl).rpath := by
  cases hui : c.use_installed <;>
    by_cases hP1 : c.component_pref = some "/usr" <;>
      cases hpk : c.package <;>
        cases nl <;>
          simp [set_environment, pc_rpath, hui, hP1, hpk]

theorem se_idem_rpath_full (w : World) (c : Comp) (env : Env) (nl : Option (List String)) :
    (set_environment w c (set_environment w c env nl) nl).rpath_full
      = (set_environment w c env nl).rpath_full := by
  cases hui : c.use_installed <;>
    by_cases hP1 : c.component_pref = some "/usr" <;>
      cases hpk : c.package <;>
        cases nl <;>
          simp [set_environment, pc_rpath_full, hui, hP1, hpk]

theorem se_idem_cppdefines (w : World) (c : Comp) (env : Env) (nl : Option (List String)) :
    (set_environment w c (set_environment w c env nl) nl).cppdefines
      = (set_environment w c env nl).cppdefines := by
  cases hui : c.use_installed <;>
    by_cases hP1 : c.component_pref = some "/usr" <;>
      cases hpk : c.package <;>
        cases nl <;>
          simp [set_environment, pc_cppdefines, pc_cppdefines_false, hui, hP1, hpk]

theorem se_idem_linkflags (w : World) (c : Comp) (env : Env) (nl : Option (List String)) :
    (set_environment w c (set_environment w c env nl) nl).linkflags
      = (set_environment w c env nl).linkflags := by
  cases hui : c.use_installed <;>
    by_cases hP1 : c.component_pref = some "/usr" <;>
      cases hpk : c.package <;>
        cases nl <;>
          simp [set_environment, pc_linkflags, hui, hP1, hpk]

theorem se_idem_libsVar (w : World) (c : Comp) (env : Env) (nl : Option (List String)) :
    (set_environment w c (set_environment w c env nl) nl).libsVar
      = (set_environment w c env nl).libsVar := by
  cases hui : c.use_installed <;>
    by_cases hP1 : c.component_pref = some "/usr" <;>
      cases hpk : c.package <;>
        cases nl <;>
          simp [set_environment, pc_libsVar, pc_libsVar_true, hui, hP1, hpk]

theorem se_idem_envPath (w : World) (c : Comp) (env : Env) (nl : Option (List String)) :
    (set_environment w c (set_environment w c env nl) nl).envPath
      = (set_environment w c env nl).envPath := by
  cases hui : c.use_installed <;>
    by_cases hP1 : c.component_pref = some "/usr" <;>
      cases hpk : c.package <;>
        cases nl <;>
          simp [set_environment, pc_envPath, hui, hP1, hpk]

theorem se_idem_ldLibraryPath (w : World) (c : Comp) (env : Env) (nl : Option (List String)) :
    (set_environment w c (set_environment w c env nl) nl).ldLibraryPath
      = (set_environment w c env nl).ldLibraryPath := by
  cases hui : c.use_installed <;>
    by_cases hP1 : c.component_pref = some "/usr" <;>
      cases hpk : c.package <;>
        cases nl <;>
          simp [set_environment, pc_ldLibraryPath, hui, hP1, hpk]

theorem se_idem_pcp (w : World) (c : Comp) (env : Env) (nl : Option (List String)) :
    (set_environment w c (set_environment w c env nl) nl).pkgConfigPath
      = (set_environment w c env nl).pkgConfigPath := by
  cases hui : c.use_installed <;>
    by_cases hP1 : c.component_pref = some "/usr" <;>
      cases hpk : c.package <;>
        cases nl <;>
          simp [set_environment, pc_pcp, pcpNext_idem, hui, hP1, hpk]

theorem set_environment_idem_aux (w : World) (c : Comp) (env : Env)
    (nl : Option (List String)) :
    set_environment w c (set_environment w c env nl) nl
      = set_environment w c env nl := by
  ext1
  · exact se_idem_cpppath w c env nl
  · exact se_idem_libpath w c env nl
  · exact se_idem_rpath w c env nl
  · exact se_idem_rpath_full w c env nl
  · exact se_idem_cppdefines w c env nl
  · exact se_idem_linkflags w c env nl
  · exact se_idem_libsVar w c env nl
  · exact se_idem_envPath w c env nl
  · exact se_idem_ldLibraryPath w c env nl
  · exact se_idem_pcp w c env nl


theorem se_nodup_all (w : World) (c : Comp) (env : Env) (nl : Option (List String))
    (h1 : env.cpppath.Nodup) (h2 : env.libpath.Nodup) (h3 : env.rpath.Nodup)
    (h4 : env.rpath_full.Nodup) (h5 : env.cppdefines.Nodup) (h6 : env.linkflags.Nodup)
    (h7 : env.libsVar.Nodup) :
    (set_environment w c env nl).cpppath.Nodup ∧
    (set_environment w c env nl).libpath.Nodup ∧
    (set_environment w c env nl).rpath.Nodup ∧
    (set_environment w c env nl).rpath_full.Nodup ∧
    (set_environment w c env nl).cppdefines.Nodup ∧
    (set_environment w c env nl).linkflags.Nodup ∧
    (set_environment w c env nl).libsVar.Nodup := by
  refine ⟨?_, ?_, ?_, ?_, ?_, ?_, ?_⟩ <;>
    (cases hui : c.use_installed <;>
      by_cases hP1 : c.component_pref = some "/usr" <;>
        cases hpk : c.package <;>
          cases nl <;>
            simp [set_environment, pc_cpppath, pc_cpppath_false, pc_libpath,
              pc_libpath_true, pc_rpath, pc_rpath_full, pc_cppdefines,
              pc_cppdefines_false, pc_linkflags, pc_libsVar, pc_libsVar_true,
              hui, hP1, hpk] <;>
              solve_by_elim [nodup_appendUnique])

/-- C9: `set_environment` is idempotent — a second identical call leaves the
include paths, library paths, both RPATH lists, defines, link flags and
linked libs (indeed the whole environment) exactly as the first call
produced them; and starting from duplicate-free lists, every accumulated
list stays duplicate-free (each entry at most once, order stable). -/
theorem set_environment_idempotent (w : World) (c : Comp) (env : Env)
    (nl : Option (List String))
    (h1 : env.cpppath.Nodup) (h2 : env.libpath.Nodup) (h3 : env.rpath.Nodup)
    (h4 : env.rpath_full.Nodup) (h5 : env.cppdefines.Nodup) (h6 : env.linkflags.Nodup)
    (h7 : env.libsVar.Nodup) :
    set_environment w c (set_environment w c env nl) nl = set_environment w c env nl ∧
    ((set_environment w c env nl).cpppath.Nodup ∧
     (set_environment w c env nl).libpath.Nodup ∧
     (set_environment w c env nl).rpath.Nodup ∧
     (set_environment w c env nl).rpath_full.Nodup ∧
     (set_environment w c env nl).cppdefines.Nodup ∧
     (set_environment w c env nl).linkflags.Nodup ∧
     (set_environment w c env nl).libsVar.Nodup) :=
  ⟨set_environment_idem_aux w c env nl,
   se_nodup_all w c env nl h1 h2 h3 h4 h5 h6 h7⟩

/-- Witness for `set_environment_idempotent` at a concrete component and an
initially empty environment. -/
theorem set_environment_idempotent_witness :
    let w : World := ⟨fun _ => true, fun _ => false, fun _ => true, fun _ => true,
      fun _ => true, fun _ => true, fun _ => true, fun _ => true, fun _ => [],
      fun _ => [], fun _ => [], fun _ => [], none⟩
    let c : Comp := ⟨"foo", false, false, none, none, [], none, none,
      some "/pre/foo", none, [], ["foo"], none, [], false, [], [], ["FOO_DEF"],
      [], [], none, [], true, ["lib", "lib64"], ["include"], false⟩
    let env : Env := ⟨[], [], [], [], [], [], [], [], [], none⟩
    set_environment w c (set_environment w c env (some ["foo"])) (some ["foo"])
      = set_environment w c env (some ["foo"]) ∧
    ((set_environment w c env (some ["foo"])).cpppath.Nodup ∧
     (set_environment w c env (some ["foo"])).libpath.Nodup ∧
     (set_environment w c env (some ["foo"])).rpath.Nodup ∧
     (set_environment w c env (some ["foo"])).rpath_full.Nodup ∧
     (set_environment w c env (some ["foo"])).cppdefines.Nodup ∧
     (set_environment w c env (some ["foo"])).linkflags.Nodup ∧
     (set_environment w c env (some ["foo"])).libsVar.Nodup) := by
  intro w c env
  exact set_environment_idempotent w c env (some ["foo"]) List.nodup_nil
    List.nodup_nil List.nodup_nil List.nodup_nil List.nodup_nil List.nodup_nil
    List.nodup_nil


/-! ## `_Component.has_missing_targets` (base.py lines 1403-1478)

The probe pipeline runs against a caller-local environment (every call site
passes a `Clone()`), so only the missing/present result, the mutation of the
`targets_found` cache flag and the sequence of probes executed are modelled.
The returned trace lists the probes in execution order. -/

inductive ProbeEv where
  | parseCflags
  | configCb
  | prog (p : String)
  | header (h : String)
  | lib (l : String)
  | func (l f : String)
deriving DecidableEq, Repr

/-- A `for`-loop of `config.Check*` probes returning `True` early on the
first failure: the trace of executed probes, and whether all passed. -/
def probeList (f : String → Bool) (mk : String → ProbeEv) :
    List String → List ProbeEv × Bool
  | [] => ([], true)
  | x :: xs =>
    if f x then
      let (tr, ok) := probeList f mk xs
      (mk x :: tr, ok)
    else ([mk x], false)

/-- The nested `for lib, functions in self.functions.items()` loop. -/
def probeFuncs (f : String → Bool) :
    List (String × List String) → List ProbeEv × Bool
  | [] => ([], true)
  | (lib, fns) :: rest =>
    match probeList f (ProbeEv.func lib) fns with
    | (tr, true) =>
      let (tr2, ok) := probeFuncs f rest
      (tr ++ tr2, ok)
    | (tr, false) => (tr, false)

/-- `has_missing_targets(env)`: `targets_found` short-circuits to "present";
the dry-run gate (with the `check_only` toggle already applied) reports
"missing" without probing; then pkg-config cflags are parsed, `--help`
reports "missing", and the probes run in order — custom callback, programs,
headers, libraries, library functions — returning "missing" at the first
failure; only a full pass sets `targets_found`.  Returns (missing?, updated
component, probe trace). -/
def has_missing_targets (o : Opts) (w : World) (c : Comp) :
    Bool × Comp × List ProbeEv :=
  if c.targets_found then (false, c, [])
  else if o.effNoExec then (true, c, [])
  else
    let tr0 : List ProbeEv := if c.pkgconfig.isSome then [ProbeEv.parseCflags] else []
    if o.helpOpt then (true, c, tr0)
    else if c.has_config_cb ∧ ¬ w.configCbOk c.name then
      (true, c, tr0 ++ [ProbeEv.configCb])
    else
      let tr1 := tr0 ++ (if c.has_config_cb then [ProbeEv.configCb] else [])
      match probeList w.checkProg ProbeEv.prog c.progs with
      | (trp, false) => (true, c, tr1 ++ trp)
      | (trp, true) =>
        match probeList w.checkHeader ProbeEv.header c.headers with
        | (trh, false) => (true, c, tr1 ++ trp ++ trh)
        | (trh, true) =>
          match probeList w.checkLib ProbeEv.lib c.libs with
          | (trl, false) => (true, c, tr1 ++ trp ++ trh ++ trl)
          | (trl, true) =>
            match probeFuncs w.checkFunc c.functions with
            | (trf, false) => (true, c, tr1 ++ trp ++ trh ++ trl ++ trf)
            | (trf, true) =>
              (false, { c with targets_found := true }, tr1 ++ trp ++ trh ++ trl ++ trf)

/-- The component returned by `has_missing_targets` is unchanged on
"missing" and has `targets_found` set on "present". -/
theorem has_missing_targets_comp (o : Opts) (w : World) (c : Comp) :
    (has_missing_targets o w c).2.1 =
      if (has_missing_targets o w c).1 then c
      else if c.targets_found then c else { c with targets_found := true } := by
  unfold has_missing_targets
  repeat' split
  all_goals simp_all


/-- C6: once `has_missing_targets` answers "present" the `targets_found`
flag is set and every later call answers "present" immediately with no
probes; a "missing" answer leaves the component (hence the flag) unchanged,
so the next call re-performs the same checks. -/
theorem has_missing_targets_cache (o : Opts) (w : World) (c : Comp) :
    (c.targets_found = true → has_missing_targets o w c = (false, c, [])) ∧
    ((has_missing_targets o w c).1 = true →
      (has_missing_targets o w c).2.1 = c ∧
      has_missing_targets o w (has_missing_targets o w c).2.1
        = has_missing_targets o w c) ∧
    ((has_missing_targets o w c).1 = false →
      (has_missing_targets o w c).2.1.targets_found = true ∧
      has_missing_targets o w (has_missing_targets o w c).2.1
        = (false, (has_missing_targets o w c).2.1, [])) := by
  refine ⟨fun h => by simp [has_missing_targets, h], fun hm => ?_, fun hp => ?_⟩
  · have hc := has_missing_targets_comp o w c
    rw [hm] at hc
    simp only [if_true] at hc
    exact ⟨hc, by rw [hc]⟩
  · have hc := has_missing_targets_comp o w c
    rw [hp] at hc
    simp only [Bool.false_eq_true, if_false] at hc
    have htf2 : (has_missing_targets o w c).2.1.targets_found = true := by
      rw [hc]
      by_cases htf : c.targets_found = true <;> simp [htf]
    refine ⟨htf2, ?_⟩
    generalize hgen : (has_missing_targets o w c).2.1 = c2 at htf2 ⊢
    simp [has_missing_targets, htf2]

/-- Witness for `has_missing_targets_cache`: a component whose single
program probe fails — the call reports "missing" and caches nothing. -/
theorem has_missing_targets_cache_witness :
    let o : Opts := ⟨false, false, false, false⟩
    let w : World := ⟨fun _ => true, fun _ => false, fun _ => false, fun _ => true,
      fun _ => true, fun _ => true, fun _ => true, fun _ => true, fun _ => [],
      fun _ => [], fun _ => [], fun _ => [], none⟩
    let c : Comp := ⟨"foo", false, false, none, none, [], none, none, none, none,
      ["gcc"], [], none, [], false, [], [], [], [], [], none, [], true,
      ["lib", "lib64"], ["include"], false⟩
    (has_missing_targets o w c).1 = true ∧ (has_missing_targets o w c).2.1 = c := by
  intro o w c
  exact ⟨rfl, ((has_missing_targets_cache o w c).2.1 rfl).1⟩

/-- The full fixed probe order of `has_missing_targets`. -/
def probeOrder (c : Comp) : List ProbeEv :=
  (if c.pkgconfig.isSome then [ProbeEv.parseCflags] else []) ++
    (if c.has_config_cb then [ProbeEv.configCb] else []) ++
    c.progs.map ProbeEv.prog ++ c.headers.map ProbeEv.header ++
    c.libs.map ProbeEv.lib ++
    c.functions.flatMap (fun p => p.2.map (ProbeEv.func p.1))

/-- Header, library and function probes come after the program probes. -/
def ProbeEv.isLate : ProbeEv → Bool
  | .header _ => true
  | .lib _ => true
  | .func _ _ => true
  | _ => false

theorem probeList_sublist (f : String → Bool) (mk : String → ProbeEv)
    (xs : List String) : (probeList f mk xs).1.Sublist (xs.map mk) := by
  induction xs with
  | nil => simp [probeList]
  | cons x xs ih =>
    simp only [probeList, List.map]
    split
    · cases hpl : probeList f mk xs with
      | mk tr ok =>
        rw [hpl] at ih
        exact List.Sublist.cons₂ _ ih
    · exact List.Sublist.cons₂ _ (List.nil_sublist _)

theorem probeFuncs_sublist (f : String → Bool)
    (fns : List (String × List String)) :
    (probeFuncs f fns).1.Sublist
      (fns.flatMap (fun p => p.2.map (ProbeEv.func p.1))) := by
  induction fns with
  | nil => simp [probeFuncs]
  | cons p rest ih =>
    obtain ⟨lib, fs⟩ := p
    simp only [probeFuncs, List.flatMap_cons]
    cases hpl : probeList f (ProbeEv.func lib) fs with
    | mk tr ok =>
      have h1 : tr.Sublist (fs.map (ProbeEv.func lib)) := by
        have h := probeList_sublist f (ProbeEv.func lib) fs
        rw [hpl] at h
        exact h
      cases ok with
      | true =>
        cases hr : probeFuncs f rest with
        | mk tr2 ok2 =>
          rw [hr] at ih
          exact List.Sublist.append h1 ih
      | false => exact h1.trans (List.sublist_append_left _ _)

theorem probeList_fail (f : String → Bool) (mk : String → ProbeEv)
    (xs : List String) (h : ∃ x ∈ xs, f x = false) :
    (probeList f mk xs).2 = false := by
  induction xs with
  | nil => simp at h
  | cons x xs ih =>
    simp only [probeList]
    by_cases hx : f x = true
    · obtain ⟨y, hy, hfy⟩ := h
      rcases List.mem_cons.mp hy with rfl | hy2
      · rw [hx] at hfy
        cases hfy
      · have := ih ⟨y, hy2, hfy⟩
        cases hpl : probeList f mk xs with
        | mk tr ok =>
          rw [hpl] at this
          simp [hx, hpl, this]
    · simp [hx]

theorem sub_extend {l A : List ProbeEv} (B : List ProbeEv) (h : l.Sublist A) :
    l.Sublist (A ++ B) :=
  h.trans (List.sublist_append_left A B)

/-- Whether a probe event's check failed under the oracles: the pkg-config
cflags parse never fails the target check, the callback consults
`configCbOk`, and the program/header/library/function probes consult the
corresponding `Check*` oracle. -/
def probeFails (w : World) (c : Comp) : ProbeEv → Bool
  | .parseCflags => false
  | .configCb => ! w.configCbOk c.name
  | .prog p => ! w.checkProg p
  | .header h => ! w.checkHeader h
  | .lib l => ! w.checkLib l
  | .func _ fn => ! w.checkFunc fn

theorem probeList_ok_pass (f : String → Bool) (mk : String → ProbeEv)
    (xs : List String) (h : (probeList f mk xs).2 = true) :
    ∀ ev ∈ (probeList f mk xs).1, ∃ x, f x = true ∧ mk x = ev := by
  induction xs with
  | nil => simp [probeList]
  | cons x xs ih =>
    by_cases hx : f x = true
    · cases hpl : probeList f mk xs with
      | mk tr ok =>
        rw [hpl] at ih
        simp only [probeList, hx, if_true, hpl] at h ⊢
        intro ev hev
        rcases List.mem_cons.mp hev with rfl | hev
        · exact ⟨x, hx, rfl⟩
        · exact ih h ev hev
    · simp [probeList, hx] at h

theorem probeList_fail_shape (f : String → Bool) (mk : String → ProbeEv)
    (xs : List String) (h : (probeList f mk xs).2 = false) :
    ∃ pre x, (probeList f mk xs).1 = pre ++ [mk x] ∧ f x = false ∧
      ∀ ev ∈ pre, ∃ y, f y = true ∧ mk y = ev := by
  induction xs with
  | nil => simp [probeList] at h
  | cons x xs ih =>
    by_cases hx : f x = true
    · cases hpl : probeList f mk xs with
      | mk tr ok =>
        rw [hpl] at ih
        simp only [probeList, hx, if_true, hpl] at h ⊢
        obtain ⟨pre, y, htr, hfy, hpre⟩ := ih h
        replace htr : tr = pre ++ [mk y] := htr
        refine ⟨mk x :: pre, y, by simp [htr], hfy, ?_⟩
        intro ev hev
        rcases List.mem_cons.mp hev with rfl | hev
        · exact ⟨x, hx, rfl⟩
        · exact hpre ev hev
    · simp only [probeList, hx, Bool.not_eq_true] at h ⊢
      simp only [hx, if_false, Bool.false_eq_true]
      refine ⟨[], x, by simp, by simpa using hx, by simp⟩

theorem probeFuncs_ok_pass (f : String → Bool)
    (fns : List (String × List String)) (h : (probeFuncs f fns).2 = true) :
    ∀ ev ∈ (probeFuncs f fns).1, ∃ l fn, f fn = true ∧ ProbeEv.func l fn = ev := by
  induction fns with
  | nil => simp [probeFuncs]
  | cons p rest ih =>
    obtain ⟨lib, fs⟩ := p
    cases hpl : probeList f (ProbeEv.func lib) fs with
    | mk tr ok =>
      cases ok with
      | false => simp [probeFuncs, hpl] at h
      | true =>
        cases hr : probeFuncs f rest with
        | mk tr2 ok2 =>
          rw [hr] at ih
          simp only [probeFuncs, hpl, hr] at h ⊢
          intro ev hev
          rcases List.mem_append.mp hev with hev | hev
          · obtain ⟨y, hy, hmk⟩ := probeList_ok_pass f (ProbeEv.func lib) fs
              (by rw [hpl]) ev (by rw [hpl]; exact hev)
            exact ⟨lib, y, hy, hmk⟩
          · exact ih h ev hev

theorem probeFuncs_fail_shape (f : String → Bool)
    (fns : List (String × List String)) (h : (probeFuncs f fns).2 = false) :
    ∃ pre l fn, (probeFuncs f fns).1 = pre ++ [ProbeEv.func l fn] ∧
      f fn = false ∧
      ∀ ev ∈ pre, ∃ l2 f2, f f2 = true ∧ ProbeEv.func l2 f2 = ev := by
  induction fns with
  | nil => simp [probeFuncs] at h
  | cons p rest ih =>
    obtain ⟨lib, fs⟩ := p
    cases hpl : probeList f (ProbeEv.func lib) fs with
    | mk tr ok =>
      cases ok with
      | false =>
        obtain ⟨pre, y, htr, hfy, hpre⟩ :=
          probeList_fail_shape f (ProbeEv.func lib) fs (by rw [hpl])
        rw [hpl] at htr
        simp only [probeFuncs, hpl]
        refine ⟨pre, lib, y, htr, hfy, ?_⟩
        intro ev hev
        obtain ⟨z, hz, hmk⟩ := hpre ev hev
        exact ⟨lib, z, hz, hmk⟩
      | true =>
        cases hr : probeFuncs f rest with
        | mk tr2 ok2 =>
          rw [hr] at ih
          simp only [probeFuncs, hpl, hr] at h ⊢
          obtain ⟨pre, l2, fn2, htr2, hf2, hpre2⟩ := ih h
          replace htr2 : tr2 = pre ++ [ProbeEv.func l2 fn2] := htr2
          refine ⟨tr ++ pre, l2, fn2, by simp [htr2], hf2, ?_⟩
          intro ev hev
          rcases List.mem_append.mp hev with hev | hev
          · obtain ⟨y, hy, hmk⟩ := probeList_ok_pass f (ProbeEv.func lib) fs
              (by rw [hpl]) ev (by rw [hpl]; exact hev)
            exact ⟨lib, y, hy, hmk⟩
          · exact hpre2 ev hev


/-- C8: the probes of `has_missing_targets` execute in the fixed order —
pkg-config cflags parse, custom config callback, required programs,
headers, libraries, library functions — the executed trace is always an
in-order selection of `probeOrder`; when some required program probe fails,
the call returns "missing" and no header, library or function probe is
executed; and in general, outside the dry-run and `--help` gates, the
first failing probe of any kind ends the call: on "present" every executed
probe passed, and on "missing" the trace is a block of passing probes
followed by exactly one failing probe, so no probe after the first failure
runs. -/
theorem has_missing_targets_probe_order (o : Opts) (w : World) (c : Comp) :
    (has_missing_targets o w c).2.2.Sublist (probeOrder c) ∧
    (c.targets_found = false →
      (∃ p ∈ c.progs, w.checkProg p = false) →
      (has_missing_targets o w c).1 = true ∧
      ∀ ev ∈ (has_missing_targets o w c).2.2, ev.isLate = false) ∧
    (c.targets_found = false → o.effNoExec = false → o.helpOpt = false →
      ((has_missing_targets o w c).1 = false →
        ∀ ev ∈ (has_missing_targets o w c).2.2, probeFails w c ev = false) ∧
      ((has_missing_targets o w c).1 = true →
        ∃ pre ev, (has_missing_targets o w c).2.2 = pre ++ [ev] ∧
          probeFails w c ev = true ∧ ∀ e ∈ pre, probeFails w c e = false)) := by
  refine ⟨?_, ?_, ?_⟩
  · by_cases h1 : c.targets_found = true
    · simp [has_missing_targets, h1]
    · by_cases h2 : o.effNoExec = true
      · simp [has_missing_targets, h1, h2]
      · by_cases h3 : o.helpOpt = true
        · simp only [has_missing_targets, h1, h2, h3, Bool.false_eq_true, if_false,
            if_true, probeOrder]
          exact sub_extend _ (sub_extend _ (sub_extend _ (sub_extend _
            (sub_extend _ (List.Sublist.refl _)))))
        · by_cases hcb : (c.has_config_cb = true ∧ ¬ w.configCbOk c.name = true)
          · simp only [has_missing_targets, h1, h2, h3, hcb, Bool.false_eq_true,
              if_false, if_true, probeOrder, hcb.1]
            exact sub_extend _ (sub_extend _ (sub_extend _ (sub_extend _
              (List.Sublist.refl _))))
          · simp only [has_missing_targets, h1, h2, h3, hcb, Bool.false_eq_true,
              if_false, if_true, probeOrder]
            cases hp : probeList w.checkProg ProbeEv.prog c.progs with
            | mk trp okp =>
              have htrp : trp.Sublist (c.progs.map ProbeEv.prog) := by
                have h := probeList_sublist w.checkProg ProbeEv.prog c.progs
                rw [hp] at h
                exact h
              cases okp with
              | false =>
                simp only []
                exact sub_extend _ (sub_extend _ (sub_extend _
                  (List.Sublist.append (List.Sublist.refl _) htrp)))
              | true =>
                cases hh : probeList w.checkHeader ProbeEv.header c.headers with
                | mk trh okh =>
                  have htrh : trh.Sublist (c.headers.map ProbeEv.header) := by
                    have h := probeList_sublist w.checkHeader ProbeEv.header c.headers
                    rw [hh] at h
                    exact h
                  cases okh with
                  | false =>
                    simp only []
                    exact sub_extend _ (sub_extend _
                      (List.Sublist.append
                        (List.Sublist.append (List.Sublist.refl _) htrp) htrh))
                  | true =>
                    cases hl : probeList w.checkLib ProbeEv.lib c.libs with
                    | mk trl okl =>
                      have htrl : trl.Sublist (c.libs.map ProbeEv.lib) := by
                        have h := probeList_sublist w.checkLib ProbeEv.lib c.libs
                        rw [hl] at h
                        exact h
                      cases okl with
                      | false =>
                        simp only []
                        exact sub_extend _
                          (List.Sublist.append
                            (List.Sublist.append
                              (List.Sublist.append (List.Sublist.refl _) htrp) htrh)
                            htrl)
                      | true =>
                        cases hf : probeFuncs w.checkFunc c.functions with
                        | mk trf okf =>
                          have htrf : trf.Sublist
                              (c.functions.flatMap
                                (fun p => p.2.map (ProbeEv.func p.1))) := by
                            have h := probeFuncs_sublist w.checkFunc c.functions
                            rw [hf] at h
                            exact h
                          cases okf <;>
                            · simp only []
                              exact List.Sublist.append
                                (List.Sublist.append
                                  (List.Sublist.append
                                    (List.Sublist.append (List.Sublist.refl _) htrp)
                                    htrh)
                                  htrl)
                                htrf
  · intro htf hex
    have hfail := probeList_fail w.checkProg ProbeEv.prog c.progs hex
    by_cases h2 : o.effNoExec = true
    · refine ⟨by simp [has_missing_targets, htf, h2], ?_⟩
      intro ev hev
      simp [has_missing_targets, htf, h2] at hev
    · by_cases h3 : o.helpOpt = true
      · refine ⟨by simp [has_missing_targets, htf, h2, h3], ?_⟩
        intro ev hev
        simp only [has_missing_targets, htf, h2, h3, Bool.false_eq_true, if_false,
          if_true] at hev
        by_cases hpc : c.pkgconfig.isSome = true <;> simp [hpc] at hev <;>
          simp [hev, ProbeEv.isLate]
      · by_cases hcb : (c.has_config_cb = true ∧ ¬ w.configCbOk c.name = true)
        · refine ⟨by simp [has_missing_targets, htf, h2, h3, hcb], ?_⟩
          intro ev hev
          simp only [has_missing_targets, htf, h2, h3, hcb, Bool.false_eq_true,
            if_false, if_true] at hev
          rcases List.mem_append.mp hev with h | h
          · by_cases hpc : c.pkgconfig.isSome = true <;> simp [hpc] at h <;>
              simp [h, ProbeEv.isLate]
          · simp at h
            simp [h, ProbeEv.isLate]
        · cases hp : probeList w.checkProg ProbeEv.prog c.progs with
          | mk trp okp =>
            rw [hp] at hfail
            subst hfail
            constructor
            · simp only [has_missing_targets, htf, h2, h3, hp, Bool.false_eq_true,
                if_false, if_true]
              split <;> rfl
            · intro ev hev
              simp only [has_missing_targets, htf, h2, h3, hp, Bool.false_eq_true,
                if_false, if_true] at hev
              split at hev
              · rcases List.mem_append.mp hev with h | h
                · by_cases hpc : c.pkgconfig.isSome = true <;> simp [hpc] at h <;>
                    simp [h, ProbeEv.isLate]
                · simp at h
                  simp [h, ProbeEv.isLate]
              · rcases List.mem_append.mp hev with h | h
                · rcases List.mem_append.mp h with h' | h'
                  · by_cases hpc : c.pkgconfig.isSome = true <;> simp [hpc] at h' <;>
                      simp [h', ProbeEv.isLate]
                  · by_cases hcb1 : c.has_config_cb = true <;> simp [hcb1] at h' <;>
                      simp [h', ProbeEv.isLate]
                · have hmem := (probeList_sublist w.checkProg ProbeEv.prog c.progs).subset
                  rw [hp] at hmem
                  obtain ⟨p, hpmem, rfl⟩ := List.mem_map.mp (hmem h)
                  rfl
  · intro htf h2 h3
    by_cases hcb : (c.has_config_cb = true ∧ ¬ w.configCbOk c.name = true)
    · constructor
      · intro hm
        simp [has_missing_targets, htf, h2, h3, hcb] at hm
      · intro _
        refine ⟨(if c.pkgconfig.isSome then [ProbeEv.parseCflags] else []),
          ProbeEv.configCb, by simp [has_missing_targets, htf, h2, h3, hcb], ?_, ?_⟩
        · have hok := hcb.2
          simp only [Bool.not_eq_true] at hok
          simp [probeFails, hok]
        · intro e he
          by_cases hpc : c.pkgconfig.isSome = true <;> simp [hpc] at he <;>
            simp [he, probeFails]
    · have hcbok : c.has_config_cb = true → w.configCbOk c.name = true := by
        intro hc1
        by_contra hno
        exact hcb ⟨hc1, by simpa using hno⟩
      have htr1 : ∀ ev ∈ ((if c.pkgconfig.isSome then [ProbeEv.parseCflags] else []) ++
          (if c.has_config_cb then [ProbeEv.configCb] else [])),
          probeFails w c ev = false := by
        intro ev hev
        rcases List.mem_append.mp hev with h | h
        · by_cases hpc : c.pkgconfig.isSome = true <;> simp [hpc] at h <;>
            simp [h, probeFails]
        · by_cases hc1 : c.has_config_cb = true
          · simp [hc1] at h
            simp [h, probeFails, hcbok hc1]
          · simp [hc1] at h
      simp only [has_missing_targets, htf, h2, h3, Bool.false_eq_true, if_false,
        if_true, hcb]
      cases hp : probeList w.checkProg ProbeEv.prog c.progs with
      | mk trp okp =>
        cases okp with
        | false =>
          obtain ⟨preP, x, htrP, hfx, hpreP⟩ :=
            probeList_fail_shape w.checkProg ProbeEv.prog c.progs (by rw [hp])
          rw [hp] at htrP
          replace htrP : trp = preP ++ [ProbeEv.prog x] := htrP
          simp only []
          constructor
          · intro hm
            simp at hm
          · intro _
            refine ⟨((if c.pkgconfig.isSome then [ProbeEv.parseCflags] else []) ++
                (if c.has_config_cb then [ProbeEv.configCb] else [])) ++ preP,
              ProbeEv.prog x, by simp [htrP], by simp [probeFails, hfx], ?_⟩
            intro e he
            rcases List.mem_append.mp he with h | h
            · exact htr1 e h
            · obtain ⟨y, hy, rfl⟩ := hpreP e h
              simp [probeFails, hy]
        | true =>
          have hppass : ∀ ev ∈ trp, probeFails w c ev = false := by
            intro ev hev
            obtain ⟨y, hy, rfl⟩ := probeList_ok_pass w.checkProg ProbeEv.prog c.progs
              (by rw [hp]) ev (by rw [hp]; exact hev)
            simp [probeFails, hy]
          cases hh : probeList w.checkHeader ProbeEv.header c.headers with
          | mk trh okh =>
            cases okh with
            | false =>
              obtain ⟨preH, x, htrH, hfx, hpreH⟩ :=
                probeList_fail_shape w.checkHeader ProbeEv.header c.headers (by rw [hh])
              rw [hh] at htrH
              replace htrH : trh = preH ++ [ProbeEv.header x] := htrH
              simp only []
              constructor
              · intro hm
                simp at hm
              · intro _
                refine ⟨(((if c.pkgconfig.isSome then [ProbeEv.parseCflags] else []) ++
                    (if c.has_config_cb then [ProbeEv.configCb] else [])) ++ trp) ++ preH,
                  ProbeEv.header x, by simp [htrH], by simp [probeFails, hfx], ?_⟩
                intro e he
                rcases List.mem_append.mp he with h | h
                · rcases List.mem_append.mp h with h' | h'
                  · exact htr1 e h'
                  · exact hppass e h'
                · obtain ⟨y, hy, rfl⟩ := hpreH e h
                  simp [probeFails, hy]
            | true =>
              have hhpass : ∀ ev ∈ trh, probeFails w c ev = false := by
                intro ev hev
                obtain ⟨y, hy, rfl⟩ := probeList_ok_pass w.checkHeader ProbeEv.header
                  c.headers (by rw [hh]) ev (by rw [hh]; exact hev)
                simp [probeFails, hy]
              cases hl : probeList w.checkLib ProbeEv.lib c.libs with
              | mk trl okl =>
                cases okl with
                | false =>
                  obtain ⟨preL, x, htrL, hfx, hpreL⟩ :=
                    probeList_fail_shape w.checkLib ProbeEv.lib c.libs (by rw [hl])
                  rw [hl] at htrL
                  replace htrL : trl = preL ++ [ProbeEv.lib x] := htrL
                  simp only []
                  constructor
                  · intro hm
                    simp at hm
                  · intro _
                    refine ⟨((((if c.pkgconfig.isSome then [ProbeEv.parseCflags] else []) ++
                        (if c.has_config_cb then [ProbeEv.configCb] else [])) ++ trp) ++
                        trh) ++ preL,
                      ProbeEv.lib x, by simp [htrL], by simp [probeFails, hfx], ?_⟩
                    intro e he
                    rcases List.mem_append.mp he with h | h
                    · rcases List.mem_append.mp h with h' | h'
                      · rcases List.mem_append.mp h' with h'' | h''
                        · exact htr1 e h''
                        · exact hppass e h''
                      · exact hhpass e h'
                    · obtain ⟨y, hy, rfl⟩ := hpreL e h
                      simp [probeFails, hy]
                | true =>
                  have hlpass : ∀ ev ∈ trl, probeFails w c ev = false := by
                    intro ev hev
                    obtain ⟨y, hy, rfl⟩ := probeList_ok_pass w.checkLib ProbeEv.lib
                      c.libs (by rw [hl]) ev (by rw [hl]; exact hev)
                    simp [probeFails, hy]
                  cases hf : probeFuncs w.checkFunc c.functions with
                  | mk trf okf =>
                    cases okf with
                    | false =>
                      obtain ⟨preF, l2, fn2, htrF, hff, hpreF⟩ :=
                        probeFuncs_fail_shape w.checkFunc c.functions (by rw [hf])
                      rw [hf] at htrF
                      replace htrF : trf = preF ++ [ProbeEv.func l2 fn2] := htrF
                      simp only []
                      constructor
                      · intro hm
                        simp at hm
                      · intro _
                        refine ⟨(((((if c.pkgconfig.isSome then [ProbeEv.parseCflags] else []) ++
                            (if c.has_config_cb then [ProbeEv.configCb] else [])) ++ trp) ++
                            trh) ++ trl) ++ preF,
                          ProbeEv.func l2 fn2, by simp [htrF],
                          by simp [probeFails, hff], ?_⟩
                        intro e he
                        rcases List.mem_append.mp he with h | h
                        · rcases List.mem_append.mp h with h' | h'
                          · rcases List.mem_append.mp h' with h'' | h''
                            · rcases List.mem_append.mp h'' with h0 | h0
                              · exact htr1 e h0
                              · exact hppass e h0
                            · exact hhpass e h''
                          · exact hlpass e h'
                        · obtain ⟨la, fa, hfa, rfl⟩ := hpreF e h
                          simp [probeFails, hfa]
                    | true =>
                      have hfpass : ∀ ev ∈ trf, probeFails w c ev = false := by
                        intro ev hev
                        obtain ⟨la, fa, hfa, rfl⟩ := probeFuncs_ok_pass w.checkFunc
                          c.functions (by rw [hf]) ev (by rw [hf]; exact hev)
                        simp [probeFails, hfa]
                      simp only []
                      constructor
                      · intro _ e he
                        rcases List.mem_append.mp he with h | h
                        · rcases List.mem_append.mp h with h' | h'
                          · rcases List.mem_append.mp h' with h'' | h''
                            · rcases List.mem_append.mp h'' with h0 | h0
                              · exact htr1 e h0
                              · exact hppass e h0
                            · exact hhpass e h''
                          · exact hlpass e h'
                        · exact hfpass e h
                      · intro hm
                        simp at hm


/-- Witness for `has_missing_targets_probe_order`: the single program probe
fails, so the call reports "missing", no header/library/function probe
appears in the trace, and the trace decomposes as passing probes followed
by the one failing probe. -/
theorem has_missing_targets_probe_order_witness :
    let o : Opts := ⟨false, false, false, false⟩
    let w : World := ⟨fun _ => true, fun _ => false, fun _ => false, fun _ => true,
      fun _ => true, fun _ => true, fun _ => true, fun _ => true, fun _ => [],
      fun _ => [], fun _ => [], fun _ => [], none⟩
    let c : Comp := ⟨"foo", false, false, none, none, [], none, none, none, none,
      ["gcc"], ["y"], none, [("y", ["fn"])], false, [], [], [], ["x.h"], [], none,
      [], true, ["lib", "lib64"], ["include"], false⟩
    (has_missing_targets o w c).2.2.Sublist (probeOrder c) ∧
    ((has_missing_targets o w c).1 = true ∧
      ∀ ev ∈ (has_missing_targets o w c).2.2, ev.isLate = false) ∧
    (∃ pre ev, (has_missing_targets o w c).2.2 = pre ++ [ev] ∧
      probeFails w c ev = true ∧ ∀ e ∈ pre, probeFails w c e = false) := by
  intro o w c
  refine ⟨(has_missing_targets_probe_order o w c).1,
    (has_missing_targets_probe_order o w c).2.1 rfl ⟨"gcc", by simp, rfl⟩, ?_⟩
  exact ((has_missing_targets_probe_order o w c).2.2 rfl rfl rfl).2 rfl


/-! ## The registry: `PreReqComponent` (base.py lines 587-1222)

`assocSet` models Python dict assignment (replace in place, else append).
The `BuildInfo` record and the `<NAME>_PREFIX` construction variables are
merged into one `buildInfo` association list (they receive the same values
through `_save_component_prefix`). -/

def assocSet {α : Type} : List (String × α) → String → α → List (String × α)
  | [], k, v => [(k, v)]
  | (k', v') :: rest, k, v =>
    if k' = k then (k', v) :: rest else (k', v') :: assocSet rest k v

structure Registry where
  defined : List (String × Comp)
  required : List (String × Bool)
  errors : List (String × Err)
  prebuiltCache : List (String × Option String)
  srcPathCache : List (String × String)
  buildInfo : List (String × String)
  installed : List String
  download_deps : Bool
  build_deps : Bool
  prereq_pref : String
  prefixVar : String
  alt_pref : List String
  build_dir : String
  system_env : Env
deriving DecidableEq, Repr

/-- The engine's oracles plus the outcome of a retriever `get` call for a
component (the retrieval transport — `GitRepoRetriever.get` /
`WebRetriever.get` together with `resolve_patches` — is the external
collaborator modelled separately above; here only its success or raised
exception is observed). -/
structure BWorld where
  w : World
  retrieveOutcome : String → Option Err

/-- Observable operations of the engine, tagged with the component name. -/
inductive Ev where
  | isInstalledCall (c : String)
  | configureCall (c : String)
  | getSrc (c : String)
  | runCmds (c : String) (dry : Bool) (cmds : List (List String))
  | setEnvCall (c : String)
  | checkTargets (c : String)
  | buildCall (c : String)
  | sysDepsCheck (c : String)
  | patchRpathsCall (c : String)
deriving DecidableEq, Repr

/-- `_Component.is_installed` (lines 1482-1491): only meaningful under
`use_installed`; probes a clone of the system environment and permanently
clears `use_installed` on failure. -/
def is_installed (o : Opts) (w : World) (sysEnv : Env) (c : Comp)
    (needed_libs : Option (List String)) : Bool × Comp × List Ev :=
  if ¬ c.use_installed then (false, c, [])
  else
    let _newEnv := set_environment w c sysEnv needed_libs
    let (missing, c2, _) := has_missing_targets o w c
    if missing then (false, { c2 with use_installed := false }, [Ev.checkTargets c.name])
    else (true, c2, [Ev.checkTargets c.name])

/-- The loop body of `PreReqComponent.get_prebuilt_path` (lines 1145-1163).
Note the source's `lib64`/`lib` loop leaves `lpath` holding the result of
the **last** iteration, so only `lib` decides `lpath`. -/
def prebuilt_search (o : Opts) (w : World) : List String → Comp → Option String × Comp
  | [], c => (none, c)
  | path :: rest, c =>
    let ipath := if w.pathExists (joinPath path "include") then
      some (joinPath path "include") else none
    let lpath := if w.pathExists (joinPath path "lib") then
      some (joinPath path "lib") else none
    if ipath = none ∧ lpath = none then prebuilt_search o w rest c
    else
      let (missing, c2, _) := has_missing_targets o w c
      if ¬ missing then (some path, c2)
      else prebuilt_search o w rest c2

/-- `PreReqComponent.get_prebuilt_path` (lines 1134-1167), memoised in
`__prebuilt_path`. -/
def get_prebuilt_path (o : Opts) (w : World) (reg : Registry) (c : Comp)
    (name : String) : Option String × Comp × Registry :=
  match reg.prebuiltCache.lookup name with
  | some v => (v, c, reg)
  | none =>
    match prebuilt_search o w reg.alt_pref c with
    | (res, c2) =>
      (res, c2, { reg with prebuiltCache := assocSet reg.prebuiltCache name res })

/-- `PreReqComponent.get_prefixes` (lines 1178-1189), recording the chosen
component prefix via `_save_component_prefix`. -/
def get_prefixes (reg : Registry) (name : String) (prebuilt : Option String) :
    String × String × Registry :=
  let pfx := reg.prefixVar
  match prebuilt with
  | some p =>
    (p, pfx, { reg with buildInfo := assocSet reg.buildInfo (name.toUpper ++ "_PREFIX") p })
  | none =>
    let target := joinPath reg.prereq_pref name
    (target, pfx,
      { reg with buildInfo := assocSet reg.buildInfo (name.toUpper ++ "_PREFIX") target })

/-- `PreReqComponent.get_src_path` (lines 1195-1202), memoised. -/
def get_src_path (reg : Registry) (name : String) : String × Registry :=
  match reg.srcPathCache.lookup name with
  | some v => (v, reg)
  | none =>
    let sp := joinPath reg.build_dir name
    (sp, { reg with srcPathCache := assocSet reg.srcPathCache name sp })

/-- `_Component.configure` (lines 1493-1509): no retriever means
`prebuilt_path = "/usr"`, otherwise the alternate-prefix search; prefixes
from the registry; `src_path` only with a retriever; an out-of-source build
directory when configured. -/
def configure (o : Opts) (w : World) (reg : Registry) (c : Comp) : Comp × Registry :=
  let (pb, c1, reg1) :=
    if ¬ c.hasRetriever then (some "/usr", c, reg)
    else get_prebuilt_path o w reg c c.name
  let (cp, pfx, reg2) := get_prefixes reg1 c.name pb
  let (sp, reg3) :=
    if c.hasRetriever then
      let (s, r) := get_src_path reg2 c.name
      (some s, r)
    else (none, reg2)
  let bp := if c1.out_of_src_build then
    some (joinPath reg3.build_dir (c.name ++ ".build")) else sp
  ({ c1 with prebuilt_path := pb, component_pref := some cp, prefixVar := some pfx,
             src_path := sp, build_path := bp }, reg3)

/-- `_Component.get` (lines 1318-1338): prebuilt or retriever-less
components retrieve nothing; without `--build-deps` retrieval is a hard
`DownloadRequired`; otherwise the retriever runs (its outcome is the
`retrieveOutcome` oracle; the `getSrc` event marks the invocation). -/
def comp_get (bw : BWorld) (reg : Registry) (c : Comp) : Except Err Unit × List Ev :=
  if c.prebuilt_path.isSome then (Except.ok (), [])
  else if ¬ c.hasRetriever then (Except.ok (), [])
  else if ¬ reg.download_deps then (Except.error (Err.downloadRequired c.name), [])
  else
    match bw.retrieveOutcome c.name with
    | none => (Except.ok (), [Ev.getSrc c.name])
    | some e => (Except.error e, [Ev.getSrc c.name])

/-- `_Component._has_missing_system_deps` (lines 1340-1373). -/
def has_missing_system_deps (o : Opts) (w : World) (c : Comp) : Bool :=
  if o.effNoExec then false
  else if o.helpOpt then true
  else if c.required_libs.any (fun l => ! w.checkLib l) then true
  else if c.required_progs.any (fun p => ! w.checkProg p) then true
  else false

/-- `_Component._check_installed_package` (lines 1556-1568): missing targets
for a prebuilt/installed component are fatal outside dry-run; note the
source passes the component name as the "package" when no package is
declared. -/
def check_installed_package (o : Opts) (w : World) (c : Comp) :
    Except Err Unit × Comp × List Ev :=
  let (missing, c2, _) := has_missing_targets o w c
  if missing then
    if o.dryRun then (Except.ok (), c2, [Ev.checkTargets c.name])
    else
      match c.package with
      | none => (Except.error (Err.missingTargets c.name (some c.name)), c2,
          [Ev.checkTargets c.name])
      | some p => (Except.error (Err.missingTargets c.name (some p)), c2,
          [Ev.checkTargets c.name])
  else (Except.ok (), c2, [Ev.checkTargets c.name])

/-- `_Component.patch_rpaths` (lines 1590-1637): a no-op for absent, empty
or `/usr`-rooted prefixes and for prefixes not on disk; otherwise the
patchelf pass runs (failures are logged and skipped, never raised). -/
def patch_rpaths (w : World) (c : Comp) : List Ev :=
  match c.component_pref with
  | none => []
  | some cp =>
    if cp = "" then []
    else if cp.startsWith "/usr" then []
    else if ¬ w.pathExists cp then []
    else [Ev.patchRpathsCall c.name]

/-- `PreReqComponent._modify_prefix` (lines 1025-1034). -/
def modify_prefix (w : World) (reg : Registry) (c : Comp) : Registry :=
  if c.package.isSome then reg
  else
    match c.src_path with
    | none => reg
    | some sp =>
      if ¬ w.pathExists sp ∧ ¬ w.pathExists (joinPath reg.prereq_pref c.name) ∧
          ¬ w.pathExists ((reg.buildInfo.lookup (c.name.toUpper ++ "_PREFIX")).getD "") then
        { reg with buildInfo := assocSet reg.buildInfo (c.name.toUpper ++ "_PREFIX") "/usr" }
      else reg

/-- The keyword arguments of a `require` call: `headers_only` plus the
`<comp>_libs` overrides (`some none` models a key present with value
`None`). -/
structure ReqKw where
  headers_only : Bool
  libsOv : String → Option (Option (List String))

/-- A plain `require(env, *comps)` call. -/
def reqKwDefault : ReqKw := ⟨false, fun _ => none⟩

/-- `require(envcopy, *requires, needed_libs=None)` as issued from `build`:
the stray `needed_libs` keyword would only be read as a libs override for a
component literally named `"needed"`. -/
def reqKwInner : ReqKw := ⟨false, fun comp => if comp = "needed" then some none else none⟩

structure ReqRes where
  res : Except Err Bool
  reg : Registry
  env : Env
  tr : List Ev

structure BuildRes where
  res : Except Err Bool
  comp : Comp
  reg : Registry
  env : Env
  tr : List Ev


/-- One iteration of the `require` loop for `comp` (lines 1053-1088):
missing definition, cached-exception replay, already-required replay
(re-apply environment, report cached flag), else `is_installed` /
`configure` / `build` with exception caching.  Mutations of the component
object are written back into `defined` (Python mutates it in place).  The
recursive call into `build` is abstracted as `buildFn`. -/
def requireOneBody (o : Opts) (bw : BWorld)
    (buildFn : Registry → Env → Comp → Option (List String) → BuildRes)
    (reg : Registry) (env : Env) (comp : String) (kw : ReqKw) : ReqRes :=
  match reg.defined.lookup comp with
  | none => ⟨Except.error (Err.missingDefinition comp), reg, env, []⟩
  | some comp_def =>
    match reg.errors.lookup comp with
    | some e => ⟨Except.error e, reg, env, []⟩
    | none =>
      let needed_libs : Option (List String) :=
        if kw.headers_only then none
        else match kw.libsOv comp with
          | some v => v
          | none => some comp_def.libs
      match reg.required.lookup comp with
      | some flag =>
        if o.helpOpt then ⟨Except.ok false, reg, env, []⟩
        else
          let env1 := set_environment bw.w comp_def env needed_libs
          if o.cleanOpt then ⟨Except.ok false, reg, env1, [Ev.setEnvCall comp]⟩
          else ⟨Except.ok flag, reg, env1, [Ev.setEnvCall comp]⟩
      | none =>
        let reg1 := { reg with required := assocSet reg.required comp false }
        let (inst, c2, trI) := is_installed o bw.w reg1.system_env comp_def needed_libs
        let reg2 := { reg1 with defined := assocSet reg1.defined comp c2 }
        if inst then ⟨Except.ok false, reg2, env, Ev.isInstalledCall comp :: trI⟩
        else
          let (c3, reg3) := configure o bw.w reg2 c2
          let reg4 := { reg3 with defined := assocSet reg3.defined comp c3 }
          let b := buildFn reg4 env c3 needed_libs
          let reg5 := { b.reg with defined := assocSet b.reg.defined comp b.comp }
          let trPre := Ev.isInstalledCall comp :: trI ++
            [Ev.configureCall comp, Ev.buildCall comp]
          match b.res with
          | Except.error e =>
            ⟨Except.error e, { reg5 with errors := assocSet reg5.errors comp e },
              b.env, trPre ++ b.tr⟩
          | Except.ok built =>
            if built then
              let reg6 := { reg5 with required := assocSet reg5.required comp false }
              let env2 := set_environment bw.w b.comp b.env needed_libs
              ⟨Except.ok true, reg6, env2, trPre ++ b.tr ++ [Ev.setEnvCall comp]⟩
            else
              let reg6 := modify_prefix bw.w reg5 b.comp
              let env2 := set_environment bw.w b.comp b.env needed_libs
              ⟨Except.ok false, reg6, env2, trPre ++ b.tr ++ [Ev.setEnvCall comp]⟩

/-- The tail of `build` (lines 1703-1711) shared by the building and
non-building paths: re-require the prerequisites, re-apply the environment,
patch RPATHs if anything changed, and re-verify the targets (fatal outside
dry-run).  The recursive `require` is abstracted as `requireFn`. -/
def buildPostBody (o : Opts) (bw : BWorld)
    (requireFn : Registry → Env → List String → ReqKw → ReqRes)
    (reg : Registry) (envcopy : Env) (c : Comp) (changes : Bool) :
    Except Err Bool × Comp × Registry × List Ev :=
  let inner : ReqRes :=
    if c.requires ≠ [] then requireFn reg envcopy c.requires reqKwInner
    else ⟨Except.ok false, reg, envcopy, []⟩
  match inner.res with
  | Except.error e => (Except.error e, c, inner.reg, inner.tr)
  | Except.ok _ =>
    let _envc2 := set_environment bw.w c inner.env (some c.libs)
    let trSE := [Ev.setEnvCall c.name]
    let trP := if changes then patch_rpaths bw.w c else []
    let (missing2, c4, _) := has_missing_targets o bw.w c
    let trT := [Ev.checkTargets c.name]
    if missing2 ∧ ¬ o.dryRun then
      (Except.error (Err.missingTargets c.name none), c4, inner.reg,
        inner.tr ++ trSE ++ trP ++ trT)
    else (Except.ok changes, c4, inner.reg, inner.tr ++ trSE ++ trP ++ trT)

/-- `_Component.build` (lines 1639-1711).  The construction environments
other than the caller's `env` are local clones, so only their registry and
trace effects are kept.  Recursive calls are abstracted (`requireFn`,
`postFn`). -/
def buildCBody (o : Opts) (bw : BWorld)
    (requireFn : Registry → Env → List String → ReqKw → ReqRes)
    (postFn : Registry → Env → Comp → Bool → Except Err Bool × Comp × Registry × List Ev)
    (reg : Registry) (env : Env) (c : Comp) (needed_libs : Option (List String)) :
    BuildRes :=
  -- _check_user_options
  if o.helpOpt then
    if c.requires ≠ [] then
      let r := requireFn reg env c.requires reqKwDefault
      match r.res with
      | Except.error e => ⟨Except.error e, c, r.reg, r.env, r.tr⟩
      | Except.ok _ => ⟨Except.ok true, c, r.reg, r.env, r.tr⟩
    else ⟨Except.ok true, c, reg, env, []⟩
  else
    let env1 := set_environment bw.w c env needed_libs
    let tr1 := [Ev.setEnvCall c.name]
    if o.cleanOpt then ⟨Except.ok true, c, reg, env1, tr1⟩
    else
      -- envcopy = system_env.Clone(); set_environment(envcopy, self.libs)
      let envcopy := set_environment bw.w c reg.system_env (some c.libs)
      let tr2 := tr1 ++ [Ev.setEnvCall c.name]
      if c.prebuilt_path.isSome then
        match check_installed_package o bw.w c with
        | (Except.ok _, c2, trC) => ⟨Except.ok false, c2, reg, env1, tr2 ++ trC⟩
        | (Except.error e, c2, trC) => ⟨Except.error e, c2, reg, env1, tr2 ++ trC⟩
      else
        let bd1 := if "all" ∈ reg.installed then false else reg.build_deps
        let bd2 := if c.name ∈ reg.installed then false else bd1
        let bd3 := match c.component_pref with
          | some p => if p ≠ "" ∧ bw.w.pathExists p then false else bd2
          | none => bd2
        let (bd4, missing_targets, c3, trM) :=
          if bd3 then
            match c.package with
            | some _ =>
              let (m, c2, _) := has_missing_targets o bw.w c
              ((if ¬ m then false else bd3), some m, c2, [Ev.checkTargets c.name])
            | none => (bd3, none, c, ([] : List Ev))
          else
            let (m, c2, _) := has_missing_targets o bw.w c
            (bd3, some m, c2, [Ev.checkTargets c.name])
        if bd4 then
          if has_missing_system_deps o bw.w c3 then
            ⟨Except.error (Err.missingSystemLibs c.name), c3, reg, env1,
              tr2 ++ trM ++ [Ev.sysDepsCheck c.name]⟩
          else
            match comp_get bw reg c3 with
            | (Except.error e, trG) =>
              ⟨Except.error e, c3, reg, env1,
                tr2 ++ trM ++ [Ev.sysDepsCheck c.name] ++ trG⟩
            | (Except.ok _, trG) =>
              -- load_config: reads an extra INI file found with the source
              -- (external input, no observable effect in the model)
              let inner : ReqRes :=
                if c3.requires ≠ [] then requireFn reg envcopy c3.requires reqKwInner
                else ⟨Except.ok false, reg, envcopy, []⟩
              let trInner := if c3.requires ≠ [] then
                inner.tr ++ [Ev.setEnvCall c.name] else inner.tr
              match inner.res with
              | Except.error e =>
                ⟨Except.error e, c3, inner.reg, env1,
                  tr2 ++ trM ++ [Ev.sysDepsCheck c.name] ++ trG ++ inner.tr⟩
              | Except.ok _ =>
                -- ensure_dir_exists(prereq_prefix); changes = True;
                -- out-of-source: wipe and recreate the build dir
                let cmdOk := if o.dryRun then true else bw.w.runOk c3.build_commands
                let trR := [Ev.runCmds c.name o.dryRun c3.build_commands]
                if ¬ cmdOk then
                  ⟨Except.error (Err.buildFailure c.name), c3, inner.reg, env1,
                    tr2 ++ trM ++ [Ev.sysDepsCheck c.name] ++ trG ++ trInner ++ trR⟩
                else
                  match postFn inner.reg envcopy c3 true with
                  | (res, c4, regP, trP) =>
                    ⟨res, c4, regP, env1,
                      tr2 ++ trM ++ [Ev.sysDepsCheck c.name] ++ trG ++ trInner ++
                        trR ++ trP⟩
        else
          if missing_targets = some true ∧ ¬ o.dryRun then
            ⟨Except.error (Err.buildRequired c.name), c3, reg, env1, tr2 ++ trM⟩
          else
            match postFn reg envcopy c3 false with
            | (res, c4, regP, trP) =>
              ⟨res, c4, regP, env1, tr2 ++ trM ++ trP⟩

/-- The four mutually recursive operations of the engine at a given fuel
level.  Modelling the recursion as one structural descent on `fuel` keeps
every definition computable by plain reduction. -/
structure EngineFns where
  reqL : Registry → Env → List String → ReqKw → Bool → ReqRes
  reqOne : Registry → Env → String → ReqKw → ReqRes
  bC : Registry → Env → Comp → Option (List String) → BuildRes
  bPost : Registry → Env → Comp → Bool → Except Err Bool × Comp × Registry × List Ev

/-- Exhausted fuel: every operation raises `Err.outOfFuel` (a `require` of
no components still succeeds, mirroring the empty loop). -/
def engineBase : EngineFns where
  reqL := fun reg env comps _ changes =>
    match comps with
    | [] => ⟨Except.ok changes, reg, env, []⟩
    | _ :: _ => ⟨Except.error Err.outOfFuel, reg, env, []⟩
  reqOne := fun reg env _ _ => ⟨Except.error Err.outOfFuel, reg, env, []⟩
  bC := fun reg env c _ => ⟨Except.error Err.outOfFuel, c, reg, env, []⟩
  bPost := fun reg _ c _ => (Except.error Err.outOfFuel, c, reg, [])

/-- One fuel level: `require` loops over the components (lines 1053-1090,
consuming fuel per component), and the bodies above are tied to the
previous level's operations. -/
def engineStep (o : Opts) (bw : BWorld) (prev : EngineFns) : EngineFns where
  reqL := fun reg env comps kw changes =>
    match comps with
    | [] => ⟨Except.ok changes, reg, env, []⟩
    | comp :: rest =>
      let r := prev.reqOne reg env comp kw
      match r.res with
      | Except.error e => ⟨Except.error e, r.reg, r.env, r.tr⟩
      | Except.ok b =>
        let r2 := prev.reqL r.reg r.env rest kw (changes || b)
        ⟨r2.res, r2.reg, r2.env, r.tr ++ r2.tr⟩
  reqOne := fun reg env comp kw => requireOneBody o bw prev.bC reg env comp kw
  bC := fun reg env c nl =>
    buildCBody o bw (fun r e cs kw2 => prev.reqL r e cs kw2 false) prev.bPost
      reg env c nl
  bPost := fun reg ec c ch =>
    buildPostBody o bw (fun r e cs kw2 => prev.reqL r e cs kw2 false) reg ec c ch

def engine (o : Opts) (bw : BWorld) : Nat → EngineFns
  | 0 => engineBase
  | fuel + 1 => engineStep o bw (engine o bw fuel)

/-- `PreReqComponent.require` (lines 1036-1090). -/
def requireL (fuel : Nat) (o : Opts) (bw : BWorld) (reg : Registry) (env : Env)
    (comps : List String) (kw : ReqKw) (changes : Bool) : ReqRes :=
  (engine o bw fuel).reqL reg env comps kw changes

/-- One iteration of the `require` loop. -/
def requireOne (fuel : Nat) (o : Opts) (bw : BWorld) (reg : Registry) (env : Env)
    (comp : String) (kw : ReqKw) : ReqRes :=
  (engine o bw fuel).reqOne reg env comp kw

/-- `_Component.build`. -/
def buildC (fuel : Nat) (o : Opts) (bw : BWorld) (reg : Registry) (env : Env)
    (c : Comp) (needed_libs : Option (List String)) : BuildRes :=
  (engine o bw fuel).bC reg env c needed_libs

def buildPost (fuel : Nat) (o : Opts) (bw : BWorld) (reg : Registry)
    (envcopy : Env) (c : Comp) (changes : Bool) :
    Except Err Bool × Comp × Registry × List Ev :=
  (engine o bw fuel).bPost reg envcopy c changes

/-- `require(env, *comps, **kw)` with an empty accumulated change flag. -/
def require (fuel : Nat) (o : Opts) (bw : BWorld) (reg : Registry) (env : Env)
    (comps : List String) (kw : ReqKw) : ReqRes :=
  requireL fuel o bw reg env comps kw false


theorem check_installed_package_tr (o : Opts) (w : World) (c : Comp) :
    (check_installed_package o w c).2.2 = [Ev.checkTargets c.name] := by
  unfold check_installed_package
  repeat' split
  all_goals rfl

/-- C5: a component defined without a retriever gets `prebuilt_path =
"/usr"` from `configure`, and (outside help/clean modes) a subsequent
`build` performs no retrieval and hands no build commands to the runner: it
takes the prebuilt branch, checks the installed targets, and reports "no
change" whenever it returns normally. -/
theorem no_retriever_never_builds (fuel : Nat) (o : Opts) (bw : BWorld)
    (reg reg2 : Registry) (env : Env) (c : Comp)
    (needed_libs : Option (List String))
    (hr : c.hasRetriever = false) (hh : o.helpOpt = false) (hc : o.cleanOpt = false) :
    (configure o bw.w reg c).1.prebuilt_path = some "/usr" ∧
    (∀ s, Ev.getSrc s ∉
      (buildC (fuel + 1) o bw reg2 env (configure o bw.w reg c).1 needed_libs).tr) ∧
    (∀ n d cmds, Ev.runCmds n d cmds ∉
      (buildC (fuel + 1) o bw reg2 env (configure o bw.w reg c).1 needed_libs).tr) ∧
    Ev.checkTargets (configure o bw.w reg c).1.name ∈
      (buildC (fuel + 1) o bw reg2 env (configure o bw.w reg c).1 needed_libs).tr ∧
    (∀ bres, (buildC (fuel + 1) o bw reg2 env (configure o bw.w reg c).1 needed_libs).res
      = Except.ok bres → bres = false) := by
  have hpb : (configure o bw.w reg c).1.prebuilt_path = some "/usr" := by
    simp [configure, hr]
  refine ⟨hpb, ?_⟩
  generalize hc1 : (configure o bw.w reg c).1 = c1 at hpb ⊢
  rcases hcip : check_installed_package o bw.w c1 with ⟨res, c2, trC⟩
  have htrC : trC = [Ev.checkTargets c1.name] := by
    have h := check_installed_package_tr o bw.w c1
    rw [hcip] at h
    exact h
  subst htrC
  cases res with
  | ok u =>
    refine ⟨?_, ?_, ?_, ?_⟩ <;>
      simp [buildC, engine, engineStep, buildCBody, hh, hc, hpb, hcip]
  | error e =>
    refine ⟨?_, ?_, ?_, ?_⟩ <;>
      simp [buildC, engine, engineStep, buildCBody, hh, hc, hpb, hcip]

/-- Witness for `no_retriever_never_builds`: a concrete retriever-less
component whose headers and libraries the system probes satisfy. -/
theorem no_retriever_never_builds_witness :
    let o : Opts := ⟨false, false, false, false⟩
    let w : World := ⟨fun _ => true, fun _ => false, fun _ => true, fun _ => true,
      fun _ => true, fun _ => true, fun _ => true, fun _ => true, fun _ => [],
      fun _ => [], fun _ => [], fun _ => [], none⟩
    let bw : BWorld := ⟨w, fun _ => none⟩
    let env : Env := ⟨[], [], [], [], [], [], [], [], [], none⟩
    let reg : Registry := ⟨[], [], [], [], [], [], [], false, false, "/p", "/i",
      [], "/b", env⟩
    let c : Comp := ⟨"valgrind_devel", false, false, none, none, [], none, none,
      none, none, [], [], none, [], false, [], [], [], ["valgrind/valgrind.h"],
      [], none, [], false, ["lib", "lib64"], ["include"], false⟩
    (configure o w reg c).1.prebuilt_path = some "/usr" ∧
    (∀ s, Ev.getSrc s ∉ (buildC 9 o bw reg env (configure o w reg c).1 none).tr) ∧
    (∀ n d cmds, Ev.runCmds n d cmds ∉
      (buildC 9 o bw reg env (configure o w reg c).1 none).tr) ∧
    Ev.checkTargets (configure o w reg c).1.name ∈
      (buildC 9 o bw reg env (configure o w reg c).1 none).tr ∧
    (∀ bres, (buildC 9 o bw reg env (configure o w reg c).1 none).res
      = Except.ok bres → bres = false) := by
  intro o w bw env reg c
  exact no_retriever_never_builds 8 o bw reg reg env c none rfl rfl rfl


theorem lookup_assocSet_self {α : Type} (l : List (String × α)) (k : String) (v : α) :
    (assocSet l k v).lookup k = some v := by
  induction l with
  | nil => simp [assocSet, List.lookup]
  | cons p rest ih =>
    obtain ⟨k', v'⟩ := p
    by_cases hk : k' = k
    · subst hk
      simp [assocSet, List.lookup]
    · simp [assocSet, hk, List.lookup, beq_eq_false_iff_ne.mpr (Ne.symm hk), ih]

theorem lookup_assocSet_other {α : Type} (l : List (String × α)) (k k' : String)
    (v : α) (hk : k' ≠ k) : (assocSet l k v).lookup k' = l.lookup k' := by
  induction l with
  | nil => simp [assocSet, List.lookup, beq_eq_false_iff_ne.mpr hk]
  | cons p rest ih =>
    obtain ⟨k0, v0⟩ := p
    by_cases h0 : k0 = k
    · subst h0
      simp [assocSet, List.lookup, beq_eq_false_iff_ne.mpr hk]
    · simp [assocSet, h0, List.lookup, ih]

set_option maxHeartbeats 1000000 in
theorem requireOneBody_error_caches (o : Opts) (bw : BWorld)
    (buildFn : Registry → Env → Comp → Option (List String) → BuildRes)
    (reg : Registry) (env : Env) (name : String) (kw : ReqKw) (cdef : Comp)
    (e : Err) (hdef : reg.defined.lookup name = some cdef)
    (h : (requireOneBody o bw buildFn reg env name kw).res = Except.error e) :
    (requireOneBody o bw buildFn reg env name kw).reg.errors.lookup name = some e := by
  have key : ∀ r : ReqRes, requireOneBody o bw buildFn reg env name kw = r →
      r.res = Except.error e → r.reg.errors.lookup name = some e := by
    intro r hr hres
    simp only [requireOneBody, hdef] at hr
    repeat' split at hr
    all_goals subst hr
    all_goals clear h
    all_goals simp_all [lookup_assocSet_self]
  exact key _ rfl h

theorem requireOne_succ_eq (fuel : Nat) (o : Opts) (bw : BWorld) (reg : Registry)
    (env : Env) (comp : String) (kw : ReqKw) :
    requireOne (fuel + 1) o bw reg env comp kw
      = requireOneBody o bw (fun r en c nl => buildC fuel o bw r en c nl)
          reg env comp kw := by
  simp [requireOne, engine, engineStep, buildC]

theorem requireOne_error_caches (fuel : Nat) (o : Opts) (bw : BWorld)
    (reg : Registry) (env : Env) (name : String) (kw : ReqKw) (cdef : Comp)
    (e : Err) (hdef : reg.defined.lookup name = some cdef)
    (h : (requireOne (fuel + 1) o bw reg env name kw).res = Except.error e) :
    (requireOne (fuel + 1) o bw reg env name kw).reg.errors.lookup name = some e := by
  rw [requireOne_succ_eq] at h ⊢
  exact requireOneBody_error_caches o bw _ reg env name kw cdef e hdef h


theorem requireOne_cached_error_replay (fuel : Nat) (o : Opts) (bw : BWorld)
    (reg : Registry) (env : Env) (name : String) (kw : ReqKw) (e : Err)
    (hdef : (reg.defined.lookup name).isSome = true)
    (herr : reg.errors.lookup name = some e) :
    requireOne (fuel + 1) o bw reg env name kw = ⟨Except.error e, reg, env, []⟩ := by
  rw [requireOne_succ_eq]
  rcases hd : reg.defined.lookup name with _ | cdef
  · rw [hd] at hdef
    simp at hdef
  · simp only [requireOneBody, hd, herr]

theorem requireL_one_eq (fuel : Nat) (o : Opts) (bw : BWorld) (reg : Registry)
    (env : Env) (name : String) (kw : ReqKw) (changes : Bool) :
    requireL (fuel + 1) o bw reg env [name] kw changes =
      match (requireOne fuel o bw reg env name kw).res with
      | Except.error e => ⟨Except.error e, (requireOne fuel o bw reg env name kw).reg,
          (requireOne fuel o bw reg env name kw).env,
          (requireOne fuel o bw reg env name kw).tr⟩
      | Except.ok b => ⟨Except.ok (changes || b), (requireOne fuel o bw reg env name kw).reg,
          (requireOne fuel o bw reg env name kw).env,
          (requireOne fuel o bw reg env name kw).tr ++ []⟩ := by
  have hnil : ∀ r e ch, (engine o bw fuel).reqL r e [] kw ch = ⟨Except.ok ch, r, e, []⟩ := by
    cases fuel <;> intro r e ch <;> rfl
  rcases hro : requireOne fuel o bw reg env name kw with ⟨res, reg1, env1, tr1⟩
  simp only [requireOne] at hro
  cases res <;>
    simp [requireL, engine, engineStep, hro, hnil]

/-- C4: once a `require` call for a defined component raises, the exception
object is cached against the component name, and any subsequent `require`
call for that name raises the identical cached exception at once — with an
empty operation trace, i.e. before and instead of `is_installed`,
`configure`, `build` or `set_environment`. -/
theorem require_error_memoised (fuel fuel2 : Nat) (o o2 : Opts) (bw bw2 : BWorld)
    (reg : Registry) (env env2 : Env) (name : String) (kw kw2 : ReqKw)
    (cdef : Comp) (e : Err)
    (hdef : reg.defined.lookup name = some cdef)
    (herr1 : (requireL (fuel + 2) o bw reg env [name] kw false).res = Except.error e) :
    (requireL (fuel + 2) o bw reg env [name] kw false).reg.errors.lookup name = some e ∧
    (((requireL (fuel + 2) o bw reg env [name] kw false).reg.defined.lookup name).isSome = true →
      requireL (fuel2 + 2) o2 bw2 (requireL (fuel + 2) o bw reg env [name] kw false).reg
          env2 [name] kw2 false
        = ⟨Except.error e, (requireL (fuel + 2) o bw reg env [name] kw false).reg,
            env2, []⟩) := by
  rw [requireL_one_eq] at herr1 ⊢
  have hcase := requireOne_error_caches fuel o bw reg env name kw cdef e hdef
  cases hro : (requireOne (fuel + 1) o bw reg env name kw).res with
  | ok b =>
    rw [hro] at herr1
    simp at herr1
  | error e0 =>
    rw [hro] at herr1
    simp only [] at herr1
    cases herr1
    have hc := hcase hro
    constructor
    · simp only [hro]
      exact hc
    · intro hdef2
      simp only [hro] at hdef2 ⊢
      rw [requireL_one_eq]
      rw [requireOne_cached_error_replay fuel2 o2 bw2 _ env2 name kw2 e hdef2 hc]

set_option maxHeartbeats 8000000 in
/-- Witness for `require_error_memoised`: a component with a retriever but
`--build-deps` disabled — the first `require` raises `DownloadRequired`,
which is cached and replayed by the second call with an empty trace. -/
theorem require_error_memoised_witness :
    let o : Opts := ⟨false, false, false, false⟩
    let w : World := ⟨fun _ => true, fun _ => false, fun _ => true, fun _ => true,
      fun _ => true, fun _ => true, fun _ => true, fun _ => true, fun _ => [],
      fun _ => [], fun _ => [], fun _ => [], none⟩
    let bw : BWorld := ⟨w, fun _ => none⟩
    let env : Env := ⟨[], [], [], [], [], [], [], [], [], none⟩
    let bad : Comp := ⟨"bad", false, false, none, none, [], none, none, none, none,
      [], [], none, [], false, [], [], [], [], [], none, [["make"]], true,
      ["lib", "lib64"], ["include"], false⟩
    let reg : Registry := ⟨[("bad", bad)], [], [], [], [], [], [], false, true,
      "/p", "/i", [], "/b", env⟩
    (requireL 9 o bw reg env ["bad"] reqKwDefault false).res
        = Except.error (Err.downloadRequired "bad") ∧
    (requireL 9 o bw reg env ["bad"] reqKwDefault false).reg.errors.lookup "bad"
        = some (Err.downloadRequired "bad") ∧
    requireL 9 o bw (requireL 9 o bw reg env ["bad"] reqKwDefault false).reg
        env ["bad"] reqKwDefault false
      = ⟨Except.error (Err.downloadRequired "bad"),
          (requireL 9 o bw reg env ["bad"] reqKwDefault false).reg, env, []⟩ := by
  intro o w bw env bad reg
  have h1 : (requireL 9 o bw reg env ["bad"] reqKwDefault false).res
      = Except.error (Err.downloadRequired "bad") := by decide
  have h := require_error_memoised 7 7 o o bw bw reg env env "bad" reqKwDefault
    reqKwDefault bad (Err.downloadRequired "bad") rfl h1
  exact ⟨h1, h.1, h.2 (by decide)⟩

/-! ## C1: the `__required` cache and the replayed change flag
(base.py lines 1036-1090)

`require` stores `self.__required[comp] = False` both before the build
(line 1073) and — in the branch where `build` reported a change — again at
line 1079; no path ever stores `True`.  The replay branch
(`if self.__required[comp]: changes = True`, line 1070) therefore never
fires: a second `require` call re-applies the environment and returns the
*stored* flag, which is `False` even when the first call built the
component and returned `True`. -/

def c1comp : Comp := ⟨"foo", false, true, none, none, [], none, none, none, none,
  [], [], none, [], false, [], [], [], [], [], none, [["make"]], true,
  ["lib", "lib64"], ["include"], false⟩

def c1world : World := ⟨fun _ => true, fun _ => false, fun _ => true, fun _ => true,
  fun _ => true, fun _ => true, fun _ => true, fun _ => true, fun _ => [],
  fun _ => [], fun _ => [], fun _ => [], none⟩

def c1bw : BWorld := ⟨c1world, fun _ => none⟩

def c1env : Env := ⟨[], [], [], [], [], [], [], [], [], none⟩

def c1reg : Registry := ⟨[("foo", c1comp)], [], [], [], [], [], [], true, true,
  "/p", "PREFIX", [], "/b", c1env⟩

def c1opts : Opts := ⟨false, false, false, false⟩

set_option maxHeartbeats 8000000 in
/-- Counterexample to C1: the first `require` of `"foo"` configures, fetches
and builds it and reports a change (`True`); the second `require` call on the
resulting registry replays the cached `__required` flag — which line 1079
stored as `False` — so the caller is told nothing changed. -/
theorem require_second_call_loses_change_flag :
    (requireL 9 c1opts c1bw c1reg c1env ["foo"] reqKwDefault false).res
        = Except.ok true ∧
    (requireL 9 c1opts c1bw
        (requireL 9 c1opts c1bw c1reg c1env ["foo"] reqKwDefault false).reg
        (requireL 9 c1opts c1bw c1reg c1env ["foo"] reqKwDefault false).env
        ["foo"] reqKwDefault false).res
      = Except.ok false := by
  exact ⟨by decide, by decide⟩

/-- C1 (amended): for a component whose `__required` entry is already
present (holding flag `b`) and with no cached error, a subsequent
`require` call outside `--help`/`--clean` performs exactly one
`set_environment` on the caller environment and returns the stored flag
`b`, leaving the registry untouched — no `configure`, `get`/retrieval or
build-command event occurs.  (By `require_second_call_loses_change_flag`,
the stored flag is `False` even when the first call reported a change:
line 1079 stores `False`, never `True`.) -/
theorem require_replay_cached_flag (fuel : Nat) (o : Opts) (bw : BWorld)
    (reg : Registry) (env : Env) (name : String) (kw : ReqKw) (b : Bool)
    (cdef : Comp)
    (hdef : reg.defined.lookup name = some cdef)
    (herr : reg.errors.lookup name = none)
    (hreq : reg.required.lookup name = some b)
    (hh : o.helpOpt = false) (hc : o.cleanOpt = false) :
    requireL (fuel + 2) o bw reg env [name] kw false =
      ⟨Except.ok b, reg,
        set_environment bw.w cdef env
          (if kw.headers_only then none
           else match kw.libsOv name with
             | some v => v
             | none => some cdef.libs),
        [Ev.setEnvCall name]⟩ := by
  rw [requireL_one_eq, requireOne_succ_eq]
  simp [requireOneBody, hdef, herr, hreq, hh, hc]

/-- Witness for `require_replay_cached_flag`: a registry whose `__required`
entry for `"foo"` is present (with the flag `False` the code stores); the
replay returns that flag with a single environment application. -/
theorem require_replay_cached_flag_witness :
    requireL 2 c1opts c1bw { c1reg with required := [("foo", false)] } c1env
        ["foo"] reqKwDefault false =
      ⟨Except.ok false, { c1reg with required := [("foo", false)] },
        set_environment c1bw.w c1comp c1env
          (if reqKwDefault.headers_only then none
           else match reqKwDefault.libsOv "foo" with
             | some v => v
             | none => some c1comp.libs),
        [Ev.setEnvCall "foo"]⟩ :=
  require_replay_cached_flag 0 c1opts c1bw
    { c1reg with required := [("foo", false)] } c1env "foo" reqKwDefault false
    c1comp (by decide) (by decide) (by decide) rfl rfl

end PrereqTools
